import Mathlib

/-!
Verification of the feature-enrichment and period-aggregation pipeline of the
streamlit-chicago-crime-app repository.

The pipeline stages embedded here:
* `clean_raw_fields` / `add_features`  (src/1_silver_data_enhance.py)
* `generate_report_periods`            (src/2_silver_report_data_create.py)
* `melt_and_pivot` / `base_agg`        (src/3_gold_agg.py)
* `combine_parquet_files_incremental`  (src/4_gold_dash_agg.py)

Strings are modelled over their character lists; the ASCII character classes
of the regexes used by the source (`[^0-9A-Za-z]`, `[^0-9]`, `\s`, `\d`) are
modelled exactly.  Decimal integer casts (`cast(pl.Int64)` etc. on Utf8
columns) are modelled by an exact parse/render pair.  Null propagation of
polars expressions is modelled with `Option`, and polars' Kleene logic for
boolean `&`/`|` is modelled explicitly.
-/

namespace Crime

/-! ## Character classes (ASCII, as used by the source regexes) -/

/-- Whitespace class `\s` of the regexes and of `str.strip_chars()`:
space, tab, newline, carriage return, vertical tab, form feed. -/
def isWsChar (c : Char) : Bool :=
  decide (c.toNat = 32 ∨ (9 ≤ c.toNat ∧ c.toNat ≤ 13))

/-- Digit class `[0-9]` / `\d`. -/
def isDigitChar (c : Char) : Bool :=
  decide (48 ≤ c.toNat ∧ c.toNat ≤ 57)

/-- Alphanumeric class `[0-9A-Za-z]`. -/
def isAlnumChar (c : Char) : Bool :=
  decide ((48 ≤ c.toNat ∧ c.toNat ≤ 57) ∨ (65 ≤ c.toNat ∧ c.toNat ≤ 90) ∨
    (97 ≤ c.toNat ∧ c.toNat ≤ 122))

def isUpperAlpha (c : Char) : Bool := decide (65 ≤ c.toNat ∧ c.toNat ≤ 90)

def isLowerAlpha (c : Char) : Bool := decide (97 ≤ c.toNat ∧ c.toNat ≤ 122)

/-- ASCII case folding, the model of `str.to_lowercase()`. -/
def lowerChar (c : Char) : Char :=
  if isUpperAlpha c then Char.ofNat (c.toNat + 32) else c

/-- ASCII case folding, the model of `str.to_uppercase()`. -/
def upperChar (c : Char) : Char :=
  if isLowerAlpha c then Char.ofNat (c.toNat - 32) else c

theorem toNat_ofNat_valid (n : Nat) (h : n.isValidChar) : (Char.ofNat n).toNat = n := by
  simp only [Char.ofNat, dif_pos h, Char.ofNatAux, Char.toNat, UInt32.toNat, UInt32.ofNat',
    BitVec.ofNatLt, BitVec.toNat]

theorem lowerChar_toNat_of_upper (c : Char) (h : isUpperAlpha c = true) :
    (lowerChar c).toNat = c.toNat + 32 := by
  have h' := of_decide_eq_true h
  rw [lowerChar, if_pos h]
  exact toNat_ofNat_valid _ (Or.inl (by omega))

theorem upperChar_toNat_of_lower (c : Char) (h : isLowerAlpha c = true) :
    (upperChar c).toNat = c.toNat - 32 := by
  have h' := of_decide_eq_true h
  rw [upperChar, if_pos h]
  exact toNat_ofNat_valid _ (Or.inl (by omega))

theorem lowerChar_not_upper (c : Char) : isUpperAlpha (lowerChar c) = false := by
  by_cases h : isUpperAlpha c = true
  · have h' := of_decide_eq_true h
    have := lowerChar_toNat_of_upper c h
    simp only [isUpperAlpha, decide_eq_false_iff_not]
    omega
  · rw [lowerChar, if_neg h]
    exact eq_false_of_ne_true h

theorem upperChar_not_lower (c : Char) : isLowerAlpha (upperChar c) = false := by
  by_cases h : isLowerAlpha c = true
  · have h' := of_decide_eq_true h
    have := upperChar_toNat_of_lower c h
    simp only [isLowerAlpha, decide_eq_false_iff_not]
    omega
  · rw [upperChar, if_neg h]
    exact eq_false_of_ne_true h

theorem lowerChar_idem (c : Char) : lowerChar (lowerChar c) = lowerChar c := by
  rw [lowerChar, lowerChar_not_upper, if_neg (by simp)]

theorem upperChar_idem (c : Char) : upperChar (upperChar c) = upperChar c := by
  rw [upperChar, upperChar_not_lower, if_neg (by simp)]

theorem isAlnumChar_upperChar (c : Char) (h : isAlnumChar c = true) :
    isAlnumChar (upperChar c) = true := by
  have h' := of_decide_eq_true h
  by_cases hl : isLowerAlpha c = true
  · have hl' := of_decide_eq_true hl
    have := upperChar_toNat_of_lower c hl
    simp only [isAlnumChar, decide_eq_true_eq]
    omega
  · rwa [upperChar, if_neg hl]

theorem isAlnumChar_lowerChar (c : Char) (h : isAlnumChar c = true) :
    isAlnumChar (lowerChar c) = true := by
  have h' := of_decide_eq_true h
  by_cases hu : isUpperAlpha c = true
  · have hu' := of_decide_eq_true hu
    have := lowerChar_toNat_of_upper c hu
    simp only [isAlnumChar, decide_eq_true_eq]
    omega
  · rwa [lowerChar, if_neg hu]

theorem not_ws_of_alnum (c : Char) (h : isAlnumChar c = true) : isWsChar c = false := by
  have h' := of_decide_eq_true h
  simp only [isWsChar, decide_eq_false_iff_not]
  omega

theorem isWsChar_upperChar (c : Char) : isWsChar (upperChar c) = isWsChar c := by
  by_cases hl : isLowerAlpha c = true
  · have hl' := of_decide_eq_true hl
    have ht := upperChar_toNat_of_lower c hl
    simp only [isWsChar]
    rw [decide_eq_false (by omega), decide_eq_false (by omega)]
  · rw [upperChar, if_neg hl]

theorem isWsChar_lowerChar (c : Char) : isWsChar (lowerChar c) = isWsChar c := by
  by_cases hu : isUpperAlpha c = true
  · have hu' := of_decide_eq_true hu
    have ht := lowerChar_toNat_of_upper c hu
    simp only [isWsChar]
    rw [decide_eq_false (by omega), decide_eq_false (by omega)]
  · rw [lowerChar, if_neg hu]

theorem isDigitChar_lowerChar (c : Char) (h : isDigitChar c = true) :
    lowerChar c = c := by
  have h' := of_decide_eq_true h
  rw [lowerChar, if_neg]
  simp only [isUpperAlpha, decide_eq_true_eq]
  omega

/-! ## String transforms (on character lists) -/

/-- `str.strip_chars()` with no argument: strip leading and trailing whitespace. -/
def trimList (l : List Char) : List Char :=
  ((l.dropWhile isWsChar).reverse.dropWhile isWsChar).reverse

/-- `str.replace_all(r"[^0-9A-Za-z]", "")`. -/
def filterAlnum (l : List Char) : List Char := l.filter isAlnumChar

/-- `str.replace_all(r"[^0-9A-Za-z\s]", "")`. -/
def filterAlnumSpace (l : List Char) : List Char :=
  l.filter (fun c => isAlnumChar c || isWsChar c)

/-- `str.replace_all(r"[^0-9]", "")`. -/
def filterDigits (l : List Char) : List Char := l.filter isDigitChar

/-- `str.replace_all(r"\s+", "_")`: each maximal whitespace run becomes one underscore. -/
def snakeAux : Bool → List Char → List Char
  | _, [] => []
  | prevWs, c :: rest =>
    if isWsChar c then
      (if prevWs then snakeAux true rest else '_' :: snakeAux true rest)
    else c :: snakeAux false rest

def snakeList (l : List Char) : List Char := snakeAux false l

/-- `str.extract(r"(\d+)", 1)`: the first maximal digit run, if any. -/
def firstDigitRun : List Char → Option (List Char)
  | [] => none
  | c :: rest =>
    if isDigitChar c then some (c :: rest.takeWhile isDigitChar)
    else firstDigitRun rest

def lowerList (l : List Char) : List Char := l.map lowerChar

def upperList (l : List Char) : List Char := l.map upperChar

/-- `str.zfill(w)`, Python semantics (sign-aware zero padding on the left). -/
def zfillList (w : Nat) (l : List Char) : List Char :=
  if w ≤ l.length then l
  else
    match l with
    | [] => List.replicate w '0'
    | c :: rest =>
      if c = '+' ∨ c = '-' then c :: (List.replicate (w - l.length) '0' ++ rest)
      else List.replicate (w - l.length) '0' ++ (c :: rest)

/-! ## Decimal integers: the model of polars Utf8 ↔ Int64/Int32 casts -/

def digitChar (d : Nat) : Char := Char.ofNat (48 + d)

/-- Decimal rendering of a natural number (`cast(pl.Utf8)` on an integer column). -/
def renderNat (n : Nat) : List Char :=
  if n = 0 then ['0'] else ((Nat.digits 10 n).reverse.map digitChar)

def renderInt (i : Int) : List Char :=
  if i < 0 then '-' :: renderNat i.natAbs else renderNat i.natAbs

def digitsVal (l : List Char) : Nat :=
  l.foldl (fun a c => 10 * a + (c.toNat - 48)) 0

def allDigits (l : List Char) : Bool := l.all isDigitChar

/-- Parse of an unsigned decimal string; `none` when empty or non-numeric. -/
def parseNatList (l : List Char) : Option Nat :=
  if l ≠ [] ∧ allDigits l = true then some (digitsVal l) else none

/-- Parse of an optionally signed decimal string. -/
def parseIntList : List Char → Option Int
  | [] => none
  | c :: rest =>
    if c = '-' then (parseNatList rest).map (fun n => -(n : Int))
    else if c = '+' then (parseNatList rest).map (fun n => (n : Int))
    else (parseNatList (c :: rest)).map (fun n => (n : Int))

/-- `cast(pl.Int64, strict=False)` on a Utf8 column: parse, `none` on overflow. -/
def castInt64 (l : List Char) : Option Int :=
  (parseIntList l).bind
    (fun i => if -9223372036854775808 ≤ i ∧ i ≤ 9223372036854775807 then some i else none)

/-- `cast(pl.Int32, strict=False)` on a Utf8 column: parse, `none` on overflow. -/
def castInt32 (l : List Char) : Option Int :=
  (parseIntList l).bind (fun i => if -2147483648 ≤ i ∧ i ≤ 2147483647 then some i else none)

theorem digitChar_toNat (d : Nat) (h : d < 10) : (digitChar d).toNat = 48 + d :=
  toNat_ofNat_valid _ (Or.inl (by omega))

theorem allDigits_renderNat (n : Nat) : allDigits (renderNat n) = true := by
  rw [renderNat]
  split
  · decide
  · rw [allDigits, List.all_eq_true]
    intro c hc
    rw [List.mem_map] at hc
    obtain ⟨d, hd, hdc⟩ := hc
    rw [List.mem_reverse] at hd
    have hlt : d < 10 := Nat.digits_lt_base (by norm_num) hd
    subst hdc
    simp only [isDigitChar, decide_eq_true_eq, digitChar_toNat d hlt]
    omega

theorem renderNat_ne_nil (n : Nat) : renderNat n ≠ [] := by
  rw [renderNat]
  split
  · simp
  · intro hc
    have hlen := congrArg List.length hc
    simp only [List.length_map, List.length_reverse, List.length_nil] at hlen
    exact absurd (List.eq_nil_of_length_eq_zero hlen)
      (Nat.digits_ne_nil_iff_ne_zero.mpr (by assumption))

theorem digitsVal_append_zeros (k : Nat) (l : List Char) :
    digitsVal (List.replicate k '0' ++ l) = digitsVal l := by
  induction k with
  | zero => simp
  | succ k ih =>
    rw [List.replicate_succ, List.cons_append, digitsVal, List.foldl_cons]
    have : 10 * 0 + ('0'.toNat - 48) = 0 := by decide
    rw [this]
    exact ih

theorem foldl_reverse_digits (dl : List Nat) (acc : Nat) :
    List.foldl (fun a d => 10 * a + d) acc dl.reverse =
      acc * 10 ^ dl.length + Nat.ofDigits 10 dl := by
  induction dl generalizing acc with
  | nil => simp
  | cons x t ih =>
    rw [List.reverse_cons, List.foldl_append, ih]
    simp only [List.foldl_cons, List.foldl_nil, List.length_cons, Nat.ofDigits_cons]
    ring

theorem foldl_eq_of_agree {α β : Type} (f g : α → β → α) (l : List β)
    (h : ∀ a b, b ∈ l → f a b = g a b) : ∀ a, l.foldl f a = l.foldl g a := by
  induction l with
  | nil => intro a; rfl
  | cons x t ih =>
    intro a
    rw [List.foldl_cons, List.foldl_cons, h a x (List.mem_cons_self x t)]
    exact ih (fun a b hb => h a b (List.mem_cons_of_mem x hb)) _

theorem digitsVal_renderNat (n : Nat) : digitsVal (renderNat n) = n := by
  rw [renderNat]
  split
  · subst_vars; decide
  · rw [digitsVal, List.foldl_map]
    rw [foldl_eq_of_agree _ (fun a d => 10 * a + d) _ (fun a d hd => by
      show 10 * a + ((digitChar d).toNat - 48) = 10 * a + d
      rw [digitChar_toNat d (Nat.digits_lt_base (by norm_num) (List.mem_reverse.mp hd))]
      omega)]
    rw [foldl_reverse_digits]
    simpa using Nat.ofDigits_digits 10 n

theorem parseNatList_renderNat (n : Nat) : parseNatList (renderNat n) = some n := by
  rw [parseNatList, if_pos ⟨renderNat_ne_nil n, allDigits_renderNat n⟩, digitsVal_renderNat]

theorem zfillList_length (w : Nat) (l : List Char) :
    (zfillList w l).length = max w l.length := by
  rw [zfillList.eq_def]
  split
  · omega
  · rename_i hlt
    match l with
    | [] => simp only [List.length_replicate, List.length_nil]; omega
    | c :: rest =>
      simp only
      split
      · simp only [List.length_cons, List.length_append, List.length_replicate]
        simp only [List.length_cons] at hlt
        omega
      · simp only [List.length_append, List.length_replicate, List.length_cons]
        simp only [List.length_cons] at hlt
        omega

theorem zfillList_of_le (w : Nat) (l : List Char) (h : w ≤ l.length) :
    zfillList w l = l := by
  rw [zfillList.eq_def, if_pos h]

theorem zfillList_idem (w : Nat) (l : List Char) :
    zfillList w (zfillList w l) = zfillList w l := by
  apply zfillList_of_le
  rw [zfillList_length]
  omega

theorem zfillList_all_digits (w : Nat) (l : List Char) (hne : l ≠ [])
    (hd : allDigits l = true) :
    zfillList w l = List.replicate (w - l.length) '0' ++ l := by
  rw [zfillList.eq_def]
  split
  · rename_i hle
    rw [Nat.sub_eq_zero_of_le hle, List.replicate_zero, List.nil_append]
  · match l with
    | [] => exact absurd rfl hne
    | c :: rest =>
      simp only
      rw [if_neg]
      rw [allDigits, List.all_cons, Bool.and_eq_true] at hd
      have hc := of_decide_eq_true hd.1
      rintro (h1 | h1) <;> subst h1 <;> revert hc <;> decide

theorem allDigits_append (l1 l2 : List Char) :
    allDigits (l1 ++ l2) = (allDigits l1 && allDigits l2) := List.all_append

theorem allDigits_replicate_zero (k : Nat) : allDigits (List.replicate k '0') = true := by
  rw [allDigits, List.all_eq_true]
  intro c hc
  rw [List.eq_of_mem_replicate hc]
  decide

theorem parseNatList_zfill (w : Nat) (l : List Char) (hne : l ≠ [])
    (hd : allDigits l = true) :
    parseNatList (zfillList w l) = parseNatList l := by
  rw [zfillList_all_digits w l hne hd]
  have h1 : List.replicate (w - l.length) '0' ++ l ≠ [] := by simp [hne]
  have h2 : allDigits (List.replicate (w - l.length) '0' ++ l) = true := by
    rw [allDigits_append, allDigits_replicate_zero, hd]
    rfl
  rw [parseNatList, if_pos ⟨h1, h2⟩, digitsVal_append_zeros, parseNatList,
    if_pos ⟨hne, hd⟩]

theorem parseIntList_of_digits (l : List Char) (hne : l ≠ []) (hd : allDigits l = true) :
    parseIntList l = some ((digitsVal l : Int)) := by
  match l with
  | [] => exact absurd rfl hne
  | c :: rest =>
    have hc : isDigitChar c = true := by
      rw [allDigits, List.all_cons, Bool.and_eq_true] at hd
      exact hd.1
    have hc' := of_decide_eq_true hc
    rw [parseIntList]
    rw [if_neg (fun h1 => by subst h1; revert hc'; decide),
      if_neg (fun h1 => by subst h1; revert hc'; decide)]
    rw [parseNatList, if_pos ⟨by simp, hd⟩]
    simp

/-- A zero-padded rendering of a bounded nonnegative integer parses back to itself:
the core of the idempotence of the geographic-code cleaning chains. -/
theorem castInt64_zfill_renderInt (w : Nat) (i : Int) (h0 : 0 ≤ i)
    (hb : i ≤ 9223372036854775807) :
    castInt64 (zfillList w (renderInt i)) = some i := by
  have hr : renderInt i = renderNat i.natAbs := by
    rw [renderInt, if_neg (by omega)]
  rw [castInt64, hr]
  have hall : allDigits (zfillList w (renderNat i.natAbs)) = true := by
    rw [zfillList_all_digits w _ (renderNat_ne_nil _) (allDigits_renderNat _),
      allDigits_append, allDigits_replicate_zero, allDigits_renderNat]
    rfl
  have hne : zfillList w (renderNat i.natAbs) ≠ [] := by
    intro hc
    have hlen := congrArg List.length hc
    rw [zfillList_length] at hlen
    simp only [List.length_nil] at hlen
    exact renderNat_ne_nil i.natAbs
      (List.eq_nil_of_length_eq_zero (by omega))
  rw [parseIntList_of_digits _ hne hall]
  have hv : digitsVal (zfillList w (renderNat i.natAbs)) = i.natAbs := by
    rw [zfillList_all_digits w _ (renderNat_ne_nil _) (allDigits_renderNat _),
      digitsVal_append_zeros, digitsVal_renderNat]
  rw [hv]
  have : ((i.natAbs : Int)) = i := Int.natAbs_of_nonneg h0
  rw [Option.some_bind, this, if_pos (by omega)]

theorem castInt32_zfill_renderInt (w : Nat) (i : Int) (h0 : 0 ≤ i)
    (hb : i ≤ 2147483647) :
    castInt32 (zfillList w (renderInt i)) = some i := by
  have h64 : castInt64 (zfillList w (renderInt i)) = some i :=
    castInt64_zfill_renderInt w i h0 (by omega)
  rw [castInt64] at h64
  rw [castInt32]
  match hp : parseIntList (zfillList w (renderInt i)) with
  | none => rw [hp] at h64; exact absurd h64 (by simp)
  | some j =>
    rw [hp] at h64
    rw [Option.some_bind] at h64 ⊢
    split at h64
    · simp only [Option.some_inj] at h64
      subst h64
      rw [if_pos (by omega)]
    · exact absurd h64 (by simp)

theorem allDigits_zfill_renderInt (w : Nat) (i : Int) (h0 : 0 ≤ i) :
    allDigits (zfillList w (renderInt i)) = true := by
  rw [renderInt, if_neg (by omega),
    zfillList_all_digits w _ (renderNat_ne_nil _) (allDigits_renderNat _),
    allDigits_append, allDigits_replicate_zero, allDigits_renderNat]
  rfl

theorem renderInt_ne_nil (i : Int) : renderInt i ≠ [] := by
  rw [renderInt]
  split
  · simp
  · exact renderNat_ne_nil _

theorem zfill_renderInt_ne_nil (w : Nat) (i : Int) : zfillList w (renderInt i) ≠ [] := by
  intro hc
  have hlen := congrArg List.length hc
  rw [zfillList_length] at hlen
  simp only [List.length_nil] at hlen
  exact renderInt_ne_nil i (List.eq_nil_of_length_eq_zero (by omega))

/-! ## Regex-replacement scanner for the literal / word-bounded patterns of the source -/

/-- A matcher receives the previous original character (for `\b` boundaries) and the
current suffix; a hit returns how many characters the match consumes and the
replacement text. -/
def Matcher : Type := Option Char → List Char → Option (Nat × List Char)

/-- Left-to-right, non-overlapping `replace_all`.  Fuel is the list length plus one,
which suffices because every hit consumes at least one character. -/
def scanRepl (m : Matcher) : Nat → Option Char → List Char → List Char
  | 0, _, l => l
  | _ + 1, _, [] => []
  | fuel + 1, prev, c :: rest =>
    match m prev (c :: rest) with
    | some (k, rep) =>
      rep ++ scanRepl m fuel (some ((c :: rest).getD (k - 1) c)) (List.drop k (c :: rest))
    | none => c :: scanRepl m fuel (some c) rest

def replaceScan (m : Matcher) (l : List Char) : List Char := scanRepl m (l.length + 1) none l

def isWordChar (c : Char) : Bool := isAlnumChar c || c == '_'

def headIsWord : List Char → Bool
  | d :: _ => isWordChar d
  | [] => false

def headIsNotWord : List Char → Bool
  | d :: _ => !isWordChar d
  | [] => true

def prevNotWord : Option Char → Bool
  | some p => !isWordChar p
  | none => true

/-- Plain substring pattern (e.g. `XX`, and the broken `\\RESIDENCE\\b` pattern that
matches the literal text backslash-RESIDENCE-backslash-b). -/
def litMatcher (pat rep : List Char) : Matcher := fun _ l =>
  if pat ≠ [] ∧ l.take pat.length = pat then some (pat.length, rep) else none

/-- Word-bounded pattern `\bPAT\b`. -/
def wordMatcher (pat rep : List Char) : Matcher := fun prev l =>
  if pat ≠ [] ∧ l.take pat.length = pat ∧ prevNotWord prev = true ∧
      headIsNotWord (l.drop pat.length) = true
  then some (pat.length, rep) else none

/-- Pattern `\sR\s\b` for a single letter `R` (the N/S/E/W rules of the block field). -/
def spacedMatcher (r : Char) (rep : List Char) : Matcher := fun _ l =>
  match l with
  | a :: b :: c :: rest =>
    if isWsChar a = true ∧ b = r ∧ isWsChar c = true ∧ headIsWord rest = true
    then some (3, rep) else none
  | _ => none

/-- If the matcher can never fire on characters drawn from `l`, the scan is a no-op. -/
theorem scanRepl_no_match (m : Matcher) (l : List Char)
    (h : ∀ (prev : Option Char) (c : Char) (rest : List Char),
      c ∈ l → (∀ x ∈ rest, x ∈ l) → m prev (c :: rest) = none) :
    ∀ (fuel : Nat) (prev : Option Char) (l' : List Char), (∀ x ∈ l', x ∈ l) →
      scanRepl m fuel prev l' = l' := by
  intro fuel
  induction fuel with
  | zero => intro prev l' _; rfl
  | succ fuel ih =>
    intro prev l' hsub
    match l' with
    | [] => rfl
    | c :: rest =>
      have hc : c ∈ l := hsub c (List.mem_cons_self c rest)
      have hrest : ∀ x ∈ rest, x ∈ l := fun x hx => hsub x (List.mem_cons_of_mem c hx)
      rw [scanRepl, h prev c rest hc hrest]
      rw [ih (some c) rest hrest]

theorem replaceScan_no_match (m : Matcher) (l : List Char)
    (h : ∀ (prev : Option Char) (c : Char) (rest : List Char),
      c ∈ l → (∀ x ∈ rest, x ∈ l) → m prev (c :: rest) = none) :
    replaceScan m l = l :=
  scanRepl_no_match m l h (l.length + 1) none l (fun _ hx => hx)

/-! ## The per-field cleaning chains of `clean_raw_fields` -/

/-- beat: keep alphanumerics, lowercase, Utf8→Int64→Utf8, zero-pad to 4.
The result lands in a new `beat_clean` column; `beat` itself is untouched. -/
def cleanBeat (s : String) : Option String :=
  (castInt64 (lowerList (filterAlnum s.data))).map
    (fun i => String.mk (zfillList 4 (renderInt i)))

/-- district / community_area: keep digits, Utf8→Int64→Utf8, zero-pad to 3. -/
def cleanGeo3 (s : String) : Option String :=
  (castInt64 (filterDigits s.data)).map (fun i => String.mk (zfillList 3 (renderInt i)))

/-- ward: first digit run, Utf8→Int32→Utf8, zero-pad to 3. -/
def cleanWard (s : String) : Option String :=
  ((firstDigitRun s.data).bind castInt32).map
    (fun i => String.mk (zfillList 3 (renderInt i)))

/-- primary_type: strip, drop punctuation, whitespace runs to underscore, lowercase. -/
def cleanPrimaryType (s : String) : String :=
  String.mk (lowerList (snakeList (filterAlnumSpace (trimList s.data))))

/-- iucr: strip, drop non-alphanumerics, zero-pad to 4. -/
def cleanIucr (s : String) : String :=
  String.mk (zfillList 4 (filterAlnum (trimList s.data)))

/-- description: strip, drop punctuation (whitespace kept), lowercase. -/
def cleanDescription (s : String) : String :=
  String.mk (lowerList (filterAlnumSpace (trimList s.data)))

/-- fbi_code: strip, drop non-alphanumerics, uppercase. -/
def cleanFbiCode (s : String) : String :=
  String.mk (upperList (filterAlnum (trimList s.data)))

/-- case_number: strip, drop non-alphanumerics. -/
def cleanCaseNumber (s : String) : String :=
  String.mk (filterAlnum (trimList s.data))

/-- block: strip, `XX`→`00`, word-bounded street abbreviations, `\sN\s\b`-style
compass expansions, uppercase. -/
def cleanBlock (s : String) : String :=
  let l0 := trimList s.data
  let l1 := replaceScan (litMatcher "XX".data "00".data) l0
  let l2 := replaceScan (wordMatcher "ST".data "STREET".data) l1
  let l3 := replaceScan (wordMatcher "AVE".data "AVENUE".data) l2
  let l4 := replaceScan (wordMatcher "BLVD".data "BOULEVARD".data) l3
  let l5 := replaceScan (wordMatcher "DR".data "DRIVE".data) l4
  let l6 := replaceScan (wordMatcher "LN".data "LANE".data) l5
  let l7 := replaceScan (wordMatcher "CT".data "COURT".data) l6
  let l8 := replaceScan (wordMatcher "PL".data "PLACE".data) l7
  let l9 := replaceScan (spacedMatcher 'N' "NORTH".data) l8
  let l10 := replaceScan (spacedMatcher 'S' "SOUTH".data) l9
  let l11 := replaceScan (spacedMatcher 'E' "EAST".data) l10
  let l12 := replaceScan (spacedMatcher 'W' "WEST".data) l11
  String.mk (upperList l12)

/-- location_description: strip, `\bAPT\b`→APARTMENT, the (inert in practice)
literal `\RESIDENCE\b` pattern→HOME, lowercase. -/
def cleanLocationDescription (s : String) : String :=
  let l0 := trimList s.data
  let l1 := replaceScan (wordMatcher "APT".data "APARTMENT".data) l0
  let l2 := replaceScan (litMatcher "\\RESIDENCE\\b".data "HOME".data) l1
  String.mk (lowerList l2)

/-! ## Fixed points of the stable cleaning chains -/

theorem map_eq_self_of {α : Type} (f : α → α) (l : List α) (h : ∀ a ∈ l, f a = a) :
    l.map f = l := by
  induction l with
  | nil => rfl
  | cons x t ih =>
    rw [List.map_cons, h x (List.mem_cons_self x t),
      ih (fun a ha => h a (List.mem_cons_of_mem x ha))]

theorem dropWhile_eq_self_of_all {α : Type} (p : α → Bool) (l : List α)
    (h : ∀ a ∈ l, p a = false) : l.dropWhile p = l := by
  match l with
  | [] => rfl
  | c :: rest => rw [List.dropWhile_cons, h c (List.mem_cons_self c rest)]; simp

theorem trimList_eq_self (l : List Char) (h : ∀ c ∈ l, isWsChar c = false) :
    trimList l = l := by
  rw [trimList, dropWhile_eq_self_of_all _ _ h, dropWhile_eq_self_of_all, List.reverse_reverse]
  intro c hc
  exact h c (List.mem_reverse.mp hc)

theorem filter_eq_self_of_all {α : Type} (p : α → Bool) (l : List α)
    (h : ∀ a ∈ l, p a = true) : l.filter p = l := by
  induction l with
  | nil => rfl
  | cons x t ih =>
    rw [List.filter_cons, if_pos (h x (List.mem_cons_self x t)),
      ih (fun a ha => h a (List.mem_cons_of_mem x ha))]

theorem takeWhile_eq_self_of_all {α : Type} (p : α → Bool) (l : List α)
    (h : ∀ a ∈ l, p a = true) : l.takeWhile p = l := by
  match l with
  | [] => rfl
  | c :: rest =>
    rw [List.takeWhile_cons, h c (List.mem_cons_self c rest)]
    simp only [if_true]
    rw [takeWhile_eq_self_of_all p rest (fun a ha => h a (List.mem_cons_of_mem c ha))]

theorem allDigits_mem (l : List Char) (hd : allDigits l = true) :
    ∀ c ∈ l, isDigitChar c = true := by
  rw [allDigits, List.all_eq_true] at hd
  exact hd

theorem firstDigitRun_of_all (l : List Char) (hne : l ≠ []) (hd : allDigits l = true) :
    firstDigitRun l = some l := by
  match l with
  | [] => exact absurd rfl hne
  | c :: rest =>
    rw [firstDigitRun, if_pos (allDigits_mem _ hd c (List.mem_cons_self c rest))]
    rw [takeWhile_eq_self_of_all _ rest
      (fun a ha => allDigits_mem _ hd a (List.mem_cons_of_mem c ha))]

theorem allDigits_filterDigits (l : List Char) : allDigits (filterDigits l) = true := by
  rw [allDigits, List.all_eq_true]
  intro c hc
  exact (List.mem_filter.mp hc).2

theorem castInt64_some (l : List Char) (i : Int) (h : castInt64 l = some i) :
    parseIntList l = some i ∧ -9223372036854775808 ≤ i ∧ i ≤ 9223372036854775807 := by
  rw [castInt64] at h
  match hp : parseIntList l with
  | none => rw [hp] at h; exact absurd h (by simp)
  | some j =>
    rw [hp, Option.some_bind] at h
    split at h
    · rename_i hb
      simp only [Option.some_inj] at h
      subst h
      exact ⟨rfl, hb.1, hb.2⟩
    · exact absurd h (by simp)

theorem castInt32_some (l : List Char) (i : Int) (h : castInt32 l = some i) :
    parseIntList l = some i ∧ -2147483648 ≤ i ∧ i ≤ 2147483647 := by
  rw [castInt32] at h
  match hp : parseIntList l with
  | none => rw [hp] at h; exact absurd h (by simp)
  | some j =>
    rw [hp, Option.some_bind] at h
    split at h
    · rename_i hb
      simp only [Option.some_inj] at h
      subst h
      exact ⟨rfl, hb.1, hb.2⟩
    · exact absurd h (by simp)

theorem parseIntList_digits_nonneg (l : List Char) (i : Int) (hd : allDigits l = true)
    (h : parseIntList l = some i) : 0 ≤ i := by
  match l with
  | [] => exact absurd h (by rw [parseIntList]; simp)
  | c :: rest =>
    rw [parseIntList_of_digits _ (by simp) hd] at h
    simp only [Option.some_inj] at h
    omega

theorem cleanGeo3_fix (s t : String) (h : cleanGeo3 s = some t) : cleanGeo3 t = some t := by
  rw [cleanGeo3] at h
  match hc : castInt64 (filterDigits s.data) with
  | none => rw [hc] at h; exact absurd h (by simp)
  | some i =>
    rw [hc, Option.map_some'] at h
    have ht : t = String.mk (zfillList 3 (renderInt i)) := by
      exact (Option.some_inj.mp h).symm
    have hi0 : 0 ≤ i :=
      parseIntList_digits_nonneg _ _ (allDigits_filterDigits s.data) (castInt64_some _ _ hc).1
    have hib := (castInt64_some _ _ hc).2.2
    subst ht
    rw [cleanGeo3]
    have hall : allDigits (zfillList 3 (renderInt i)) = true := allDigits_zfill_renderInt 3 i hi0
    have hfd : filterDigits (zfillList 3 (renderInt i)) = zfillList 3 (renderInt i) :=
      filter_eq_self_of_all _ _ (allDigits_mem _ hall)
    show (castInt64 (filterDigits (zfillList 3 (renderInt i)))).map _ = _
    rw [hfd, castInt64_zfill_renderInt 3 i hi0 hib, Option.map_some']

theorem digits_are_alnum (l : List Char) (hd : allDigits l = true) :
    ∀ c ∈ l, isAlnumChar c = true := by
  intro c hc
  have := of_decide_eq_true (allDigits_mem _ hd c hc)
  simp only [isAlnumChar, decide_eq_true_eq]
  omega

theorem lowerList_digits (l : List Char) (hd : allDigits l = true) : lowerList l = l :=
  map_eq_self_of _ _ (fun c hc => isDigitChar_lowerChar c (allDigits_mem _ hd c hc))

theorem parseIntList_alnum_nonneg (l : List Char) (i : Int)
    (hal : ∀ c ∈ l, isAlnumChar c = true) (h : parseIntList l = some i) : 0 ≤ i := by
  match l with
  | [] => exact absurd h (by rw [parseIntList]; simp)
  | c :: rest =>
    have hc := of_decide_eq_true (hal c (List.mem_cons_self c rest))
    rw [parseIntList, if_neg (fun h1 => by subst h1; revert hc; decide),
      if_neg (fun h1 => by subst h1; revert hc; decide)] at h
    match hp : parseNatList (c :: rest) with
    | none => rw [hp] at h; exact absurd h (by simp)
    | some n =>
      rw [hp] at h
      simp at h
      omega

theorem alnum_lowerList (l : List Char) (hal : ∀ c ∈ l, isAlnumChar c = true) :
    ∀ c ∈ lowerList l, isAlnumChar c = true := by
  intro c hc
  rw [lowerList, List.mem_map] at hc
  obtain ⟨a, ha, hac⟩ := hc
  subst hac
  exact isAlnumChar_lowerChar a (hal a ha)

theorem filterAlnum_mem (l : List Char) : ∀ c ∈ filterAlnum l, isAlnumChar c = true :=
  fun c hc => (List.mem_filter.mp hc).2

theorem cleanBeat_fix (s t : String) (h : cleanBeat s = some t) : cleanBeat t = some t := by
  rw [cleanBeat] at h
  match hc : castInt64 (lowerList (filterAlnum s.data)) with
  | none => rw [hc] at h; exact absurd h (by simp)
  | some i =>
    rw [hc, Option.map_some'] at h
    have ht : t = String.mk (zfillList 4 (renderInt i)) := (Option.some_inj.mp h).symm
    have hi0 : 0 ≤ i :=
      parseIntList_alnum_nonneg _ _ (alnum_lowerList _ (filterAlnum_mem s.data))
        (castInt64_some _ _ hc).1
    have hib := (castInt64_some _ _ hc).2.2
    subst ht
    rw [cleanBeat]
    have hall : allDigits (zfillList 4 (renderInt i)) = true := allDigits_zfill_renderInt 4 i hi0
    have hfa : filterAlnum (zfillList 4 (renderInt i)) = zfillList 4 (renderInt i) :=
      filter_eq_self_of_all _ _ (digits_are_alnum _ hall)
    show (castInt64 (lowerList (filterAlnum (zfillList 4 (renderInt i))))).map _ = _
    rw [hfa, lowerList_digits _ hall, castInt64_zfill_renderInt 4 i hi0 hib, Option.map_some']

theorem firstDigitRun_some (l r : List Char) (h : firstDigitRun l = some r) :
    r ≠ [] ∧ allDigits r = true := by
  induction l with
  | nil => exact absurd h (by rw [firstDigitRun]; simp)
  | cons c rest ih =>
    rw [firstDigitRun] at h
    split at h
    · rename_i hd
      simp only [Option.some_inj] at h
      subst h
      refine ⟨by simp, ?_⟩
      rw [allDigits, List.all_cons, hd, Bool.true_and, List.all_eq_true]
      intro x hx
      exact List.mem_takeWhile_imp hx
    · exact ih h

theorem cleanWard_fix (s t : String) (h : cleanWard s = some t) : cleanWard t = some t := by
  rw [cleanWard] at h
  match hr : firstDigitRun s.data with
  | none => rw [hr] at h; exact absurd h (by simp)
  | some r =>
    rw [hr, Option.some_bind] at h
    match hc : castInt32 r with
    | none => rw [hc] at h; exact absurd h (by simp)
    | some i =>
      rw [hc, Option.map_some'] at h
      have ht : t = String.mk (zfillList 3 (renderInt i)) := (Option.some_inj.mp h).symm
      obtain ⟨hrne, hrdig⟩ := firstDigitRun_some _ _ hr
      have hi0 : 0 ≤ i := parseIntList_digits_nonneg _ _ hrdig (castInt32_some _ _ hc).1
      have hib := (castInt32_some _ _ hc).2.2
      subst ht
      rw [cleanWard]
      have hall : allDigits (zfillList 3 (renderInt i)) = true := allDigits_zfill_renderInt 3 i hi0
      show ((firstDigitRun (zfillList 3 (renderInt i))).bind castInt32).map _ = _
      rw [firstDigitRun_of_all _ (zfill_renderInt_ne_nil 3 i) hall, Option.some_bind,
        castInt32_zfill_renderInt 3 i hi0 hib, Option.map_some']

theorem mem_zfillList (w : Nat) (l : List Char) (c : Char) (h : c ∈ zfillList w l) :
    c = '0' ∨ c ∈ l := by
  rw [zfillList.eq_def] at h
  split at h
  · right; exact h
  · match l with
    | [] => left; exact List.eq_of_mem_replicate h
    | a :: rest =>
      simp only at h
      split at h
      · rcases List.mem_cons.mp h with h1 | h1
        · right; rw [h1]; exact List.mem_cons_self a rest
        · rcases List.mem_append.mp h1 with h2 | h2
          · left; exact List.eq_of_mem_replicate h2
          · right; exact List.mem_cons_of_mem a h2
      · rcases List.mem_append.mp h with h1 | h1
        · left; exact List.eq_of_mem_replicate h1
        · right; exact h1

theorem alnum_zfill_filterAlnum (w : Nat) (l : List Char) :
    ∀ c ∈ zfillList w (filterAlnum l), isAlnumChar c = true := by
  intro c hc
  rcases mem_zfillList _ _ _ hc with h1 | h1
  · subst h1; decide
  · exact filterAlnum_mem l c h1

theorem filterAlnum_eq_self (l : List Char) (h : ∀ c ∈ l, isAlnumChar c = true) :
    filterAlnum l = l :=
  filter_eq_self_of_all isAlnumChar l h

theorem cleanIucr_fix (s : String) : cleanIucr (cleanIucr s) = cleanIucr s := by
  rw [cleanIucr, cleanIucr]
  have ht := alnum_zfill_filterAlnum 4 (trimList s.data)
  have hnws : ∀ c ∈ zfillList 4 (filterAlnum (trimList s.data)), isWsChar c = false :=
    fun c hc => not_ws_of_alnum c (ht c hc)
  show String.mk (zfillList 4 (filterAlnum
    (trimList (zfillList 4 (filterAlnum (trimList s.data)))))) = _
  rw [trimList_eq_self _ hnws, filterAlnum_eq_self _ ht, zfillList_idem]

theorem cleanCaseNumber_fix (s : String) :
    cleanCaseNumber (cleanCaseNumber s) = cleanCaseNumber s := by
  rw [cleanCaseNumber, cleanCaseNumber]
  have ht := filterAlnum_mem (trimList s.data)
  have hnws : ∀ c ∈ filterAlnum (trimList s.data), isWsChar c = false :=
    fun c hc => not_ws_of_alnum c (ht c hc)
  show String.mk (filterAlnum (trimList (filterAlnum (trimList s.data)))) = _
  rw [trimList_eq_self _ hnws, filterAlnum_eq_self _ ht]

theorem alnum_upperList (l : List Char) (hal : ∀ c ∈ l, isAlnumChar c = true) :
    ∀ c ∈ upperList l, isAlnumChar c = true := by
  intro c hc
  rw [upperList, List.mem_map] at hc
  obtain ⟨a, ha, hac⟩ := hc
  subst hac
  exact isAlnumChar_upperChar a (hal a ha)

theorem upperList_idem (l : List Char) : upperList (upperList l) = upperList l := by
  show (l.map upperChar).map upperChar = l.map upperChar
  rw [List.map_map]
  exact List.map_congr_left (fun a _ => upperChar_idem a)

theorem cleanFbiCode_fix (s : String) : cleanFbiCode (cleanFbiCode s) = cleanFbiCode s := by
  rw [cleanFbiCode, cleanFbiCode]
  have ht := alnum_upperList (filterAlnum (trimList s.data)) (filterAlnum_mem _)
  have hnws : ∀ c ∈ upperList (filterAlnum (trimList s.data)), isWsChar c = false :=
    fun c hc => not_ws_of_alnum c (ht c hc)
  show String.mk (upperList (filterAlnum
    (trimList (upperList (filterAlnum (trimList s.data)))))) = _
  rw [trimList_eq_self _ hnws, filterAlnum_eq_self _ ht, upperList_idem]

/-! ## The DataFrame model and `clean_raw_fields` itself

A DataFrame is an association list of named columns; a column is a list of
nullable strings.  `with_columns` evaluates every expression against the input
frame, then overwrites existing columns in place and appends new ones in order,
which `applyExprs` reproduces. -/

abbrev Col : Type := List (Option String)

structure DF where
  cols : List (String × Col)
deriving DecidableEq

def dfNames (df : DF) : List String := df.cols.map Prod.fst

def getCol (df : DF) (n : String) : Option Col := df.cols.lookup n

def setColAux : List (String × Col) → String → Col → List (String × Col)
  | [], n, c => [(n, c)]
  | (m, old) :: rest, n, c =>
    if m = n then (n, c) :: rest else (m, old) :: setColAux rest n c

def setCol (df : DF) (n : String) (c : Col) : DF := ⟨setColAux df.cols n c⟩

def applyExprs (df : DF) (ex : List (String × Col)) : DF :=
  ex.foldl (fun d p => setCol d p.1 p.2) df

/-- Null-propagating cell functions of each cleaned field (`cast` chains return
null on null input; the pure string chains map over non-null cells). -/
def beatCellFun (v : Option String) : Option String := v.bind cleanBeat

def districtCellFun (v : Option String) : Option String := v.bind cleanGeo3

def communityAreaCellFun (v : Option String) : Option String := v.bind cleanGeo3

def wardCellFun (v : Option String) : Option String := v.bind cleanWard

def primaryTypeCellFun (v : Option String) : Option String := v.map cleanPrimaryType

def iucrCellFun (v : Option String) : Option String := v.map cleanIucr

def descriptionCellFun (v : Option String) : Option String := v.map cleanDescription

def fbiCodeCellFun (v : Option String) : Option String := v.map cleanFbiCode

def caseNumberCellFun (v : Option String) : Option String := v.map cleanCaseNumber

def blockCellFun (v : Option String) : Option String := v.map cleanBlock

def locationDescriptionCellFun (v : Option String) : Option String :=
  v.map cleanLocationDescription

/-- One field's contribution to the `with_columns` expression list: preserve the
raw column the first time the field is cleaned, then the cleaned column. -/
def fieldExprs (df : DF) (src dst raw : String)
    (f : Option String → Option String) : List (String × Col) :=
  match getCol df src with
  | none => []
  | some col =>
    (if (getCol df raw).isSome then [] else [(raw, col)]) ++ [(dst, col.map f)]

def cleanExprs (df : DF) : List (String × Col) :=
  fieldExprs df "beat" "beat_clean" "beat_raw" beatCellFun ++
  fieldExprs df "district" "district" "district_raw" districtCellFun ++
  fieldExprs df "community_area" "community_area" "community_area_raw" communityAreaCellFun ++
  fieldExprs df "ward" "ward" "ward_raw" wardCellFun ++
  fieldExprs df "primary_type" "primary_type" "primary_type_raw" primaryTypeCellFun ++
  fieldExprs df "iucr" "iucr" "iucr_raw" iucrCellFun ++
  fieldExprs df "description" "description" "description_raw" descriptionCellFun ++
  fieldExprs df "fbi_code" "fbi_code" "fbi_code_raw" fbiCodeCellFun ++
  fieldExprs df "case_number" "case_number" "case_number_raw" caseNumberCellFun ++
  fieldExprs df "block" "block" "block_raw" blockCellFun ++
  fieldExprs df "location_description" "location_description" "location_description_raw"
    locationDescriptionCellFun

/-- The Field Normalizer `clean_raw_fields`. -/
def cleanRawFields (df : DF) : DF := applyExprs df (cleanExprs df)

theorem lookup_cons_eq {β : Type} (k : String) (v : β) (es : List (String × β)) :
    ((k, v) :: es).lookup k = some v := by
  simp [List.lookup]

theorem lookup_cons_ne {β : Type} (k : String) (v : β) (es : List (String × β))
    (n : String) (h : n ≠ k) : ((k, v) :: es).lookup n = es.lookup n := by
  simp only [List.lookup, beq_eq_false_iff_ne.mpr h]

theorem getCol_setCol_self (df : DF) (n : String) (c : Col) :
    getCol (setCol df n c) n = some c := by
  show (setColAux df.cols n c).lookup n = some c
  induction df.cols with
  | nil => simp [setColAux, List.lookup]
  | cons p rest ih =>
    match p with
    | (m, old) =>
      rw [setColAux]
      split
      · exact lookup_cons_eq n c rest
      · rename_i hm
        rw [lookup_cons_ne m old _ n (fun h => hm h.symm)]
        exact ih

theorem getCol_setCol_other (df : DF) (n m : String) (c : Col) (h : m ≠ n) :
    getCol (setCol df n c) m = getCol df m := by
  show (setColAux df.cols n c).lookup m = df.cols.lookup m
  induction df.cols with
  | nil =>
    show ((n, c) :: []).lookup m = List.lookup m []
    rw [lookup_cons_ne n c [] m h]
  | cons p rest ih =>
    match p with
    | (k, old) =>
      rw [setColAux]
      split
      · rename_i hk
        subst hk
        rw [lookup_cons_ne k c rest m h, lookup_cons_ne k old rest m h]
      · by_cases hk : m = k
        · subst hk
          rw [lookup_cons_eq m old, lookup_cons_eq m old]
        · rw [lookup_cons_ne k old _ m hk, lookup_cons_ne k old rest m hk]
          exact ih

theorem lookup_append {β : Type} (l1 l2 : List (String × β)) (n : String) :
    (l1 ++ l2).lookup n =
      match l1.lookup n with
      | some v => some v
      | none => l2.lookup n := by
  induction l1 with
  | nil => simp
  | cons p rest ih =>
    match p with
    | (k, v) =>
      rw [List.cons_append]
      by_cases hk : n = k
      · subst hk
        rw [lookup_cons_eq n v (rest ++ l2), lookup_cons_eq n v rest]
      · rw [lookup_cons_ne k v (rest ++ l2) n hk, lookup_cons_ne k v rest n hk]
        exact ih

theorem getCol_applyExprs (ex : List (String × Col)) (df : DF) (n : String) :
    getCol (applyExprs df ex) n =
      match ex.reverse.lookup n with
      | some c => some c
      | none => getCol df n := by
  induction ex generalizing df with
  | nil => simp [applyExprs]
  | cons p rest ih =>
    match p with
    | (m, c) =>
      show getCol (applyExprs (setCol df m c) rest) n = _
      rw [ih (setCol df m c)]
      rw [List.reverse_cons, lookup_append]
      match hr : rest.reverse.lookup n with
      | some v => rfl
      | none =>
        simp only
        by_cases hm : n = m
        · subst hm
          rw [lookup_cons_eq n c [], getCol_setCol_self]
        · rw [lookup_cons_ne m c [] n hm, getCol_setCol_other df m n c hm]
          rfl

theorem getCol_applyExprs_of_lookup_none (ex : List (String × Col)) (df : DF) (n : String)
    (h : ex.reverse.lookup n = none) : getCol (applyExprs df ex) n = getCol df n := by
  rw [getCol_applyExprs, h]

theorem getCol_applyExprs_of_lookup_some (ex : List (String × Col)) (df : DF) (n : String)
    (c : Col) (h : ex.reverse.lookup n = some c) : getCol (applyExprs df ex) n = some c := by
  rw [getCol_applyExprs, h]

theorem applyExprs_append (df : DF) (a b : List (String × Col)) :
    applyExprs df (a ++ b) = applyExprs (applyExprs df a) b :=
  List.foldl_append _ _ _ _

theorem lookup_rev_fieldExprs_none (df : DF) (s d r : String)
    (f : Option String → Option String) (n : String) (hnr : n ≠ r) (hnd : n ≠ d) :
    ((fieldExprs df s d r f).reverse).lookup n = none := by
  rw [fieldExprs]
  match getCol df s with
  | none => rfl
  | some col =>
    simp only
    rw [List.reverse_append, List.reverse_singleton, List.singleton_append,
      lookup_cons_ne d (col.map f) _ n hnd]
    split
    · rfl
    · rw [List.reverse_singleton, lookup_cons_ne r col [] n hnr]
      rfl

theorem peel_other (df0 df : DF) (s d r : String) (f : Option String → Option String)
    (n : String) (hnr : n ≠ r) (hnd : n ≠ d) :
    getCol (applyExprs df0 (fieldExprs df s d r f)) n = getCol df0 n :=
  getCol_applyExprs_of_lookup_none _ _ _ (lookup_rev_fieldExprs_none df s d r f n hnr hnd)

theorem peel_dst (df0 df : DF) (s d r : String) (f : Option String → Option String) :
    getCol (applyExprs df0 (fieldExprs df s d r f)) d =
      match getCol df s with
      | some col => some (col.map f)
      | none => getCol df0 d := by
  rw [fieldExprs]
  match getCol df s with
  | none => rfl
  | some col =>
    simp only
    apply getCol_applyExprs_of_lookup_some
    rw [List.reverse_append, List.reverse_singleton, List.singleton_append,
      lookup_cons_eq d (col.map f)]

theorem fieldExprs_names (df : DF) (s d r : String) (f : Option String → Option String) :
    ∀ p ∈ fieldExprs df s d r f, p.1 = r ∨ p.1 = d := by
  intro p hp
  rw [fieldExprs] at hp
  match hg : getCol df s with
  | none => rw [hg] at hp; exact absurd hp (by simp)
  | some col =>
    rw [hg] at hp
    simp only at hp
    rcases List.mem_append.mp hp with h1 | h1
    · split at h1
      · exact absurd h1 (by simp)
      · rw [List.mem_singleton] at h1
        left; rw [h1]
    · rw [List.mem_singleton] at h1
      right; rw [h1]

theorem fieldExprs_src_present (df : DF) (s d r : String)
    (f : Option String → Option String) (p : String × Col) (hp : p ∈ fieldExprs df s d r f) :
    (getCol df s).isSome = true := by
  rw [fieldExprs] at hp
  match hg : getCol df s with
  | none => rw [hg] at hp; exact absurd hp (by simp)
  | some col => rfl

/-! Name-set behaviour of `applyExprs`. -/

theorem setColAux_map_fst_mem (l : List (String × Col)) (n : String) (c : Col)
    (h : n ∈ l.map Prod.fst) : (setColAux l n c).map Prod.fst = l.map Prod.fst := by
  induction l with
  | nil => exact absurd h (by simp)
  | cons p rest ih =>
    match p with
    | (k, old) =>
      rw [setColAux]
      split
      · rename_i hk
        subst hk
        rfl
      · rename_i hk
        rw [List.map_cons, List.map_cons]
        have hmem : n ∈ rest.map Prod.fst := by
          rcases List.mem_cons.mp h with h1 | h1
          · exact absurd h1.symm hk
          · exact h1
        rw [ih hmem]

theorem dfNames_setCol_mem (df : DF) (n : String) (c : Col) (h : n ∈ dfNames df) :
    dfNames (setCol df n c) = dfNames df :=
  setColAux_map_fst_mem df.cols n c h

theorem setColAux_map_fst_mem_of (l : List (String × Col)) (n m : String) (c : Col)
    (h : m ∈ l.map Prod.fst) : m ∈ (setColAux l n c).map Prod.fst := by
  induction l with
  | nil => exact absurd h (by simp)
  | cons p rest ih =>
    match p with
    | (k, old) =>
      rw [setColAux]
      split
      · rename_i hk
        subst hk
        rcases List.mem_cons.mp h with h1 | h1
        · rw [List.map_cons, h1]
          exact List.mem_cons_self _ _
        · exact List.mem_cons.mpr (Or.inr h1)
      · rcases List.mem_cons.mp h with h1 | h1
        · rw [List.map_cons]
          exact List.mem_cons.mpr (Or.inl h1)
        · rw [List.map_cons]
          exact List.mem_cons.mpr (Or.inr (ih h1))

theorem mem_dfNames_setCol (df : DF) (n m : String) (c : Col) (h : m ∈ dfNames df) :
    m ∈ dfNames (setCol df n c) :=
  setColAux_map_fst_mem_of df.cols n m c h

theorem setColAux_map_fst_self (l : List (String × Col)) (n : String) (c : Col) :
    n ∈ (setColAux l n c).map Prod.fst := by
  induction l with
  | nil => simp [setColAux]
  | cons p rest ih =>
    match p with
    | (k, old) =>
      rw [setColAux]
      split
      · simp
      · rw [List.map_cons]
        exact List.mem_cons.mpr (Or.inr ih)

theorem mem_dfNames_setCol_self (df : DF) (n : String) (c : Col) :
    n ∈ dfNames (setCol df n c) :=
  setColAux_map_fst_self df.cols n c

theorem dfNames_applyExprs_of_all_mem (ex : List (String × Col)) (df : DF)
    (h : ∀ p ∈ ex, p.1 ∈ dfNames df) : dfNames (applyExprs df ex) = dfNames df := by
  induction ex generalizing df with
  | nil => rfl
  | cons p rest ih =>
    match p with
    | (m, c) =>
      show dfNames (applyExprs (setCol df m c) rest) = _
      have hm : m ∈ dfNames df := h (m, c) (List.mem_cons_self _ _)
      rw [ih (setCol df m c) (fun q hq =>
        mem_dfNames_setCol df m q.1 c (h q (List.mem_cons_of_mem _ hq))),
        dfNames_setCol_mem df m c hm]

theorem mem_dfNames_applyExprs_of_dfNames (ex : List (String × Col)) (df : DF)
    (n : String) (h : n ∈ dfNames df) : n ∈ dfNames (applyExprs df ex) := by
  induction ex generalizing df with
  | nil => exact h
  | cons q rest ih =>
    match q with
    | (m, c) =>
      show n ∈ dfNames (applyExprs (setCol df m c) rest)
      exact ih (setCol df m c) (mem_dfNames_setCol df m n c h)

theorem mem_dfNames_applyExprs_of_mem (ex : List (String × Col)) (df : DF)
    (p : String × Col) (hp : p ∈ ex) : p.1 ∈ dfNames (applyExprs df ex) := by
  induction ex generalizing df with
  | nil => exact absurd hp (by simp)
  | cons q rest ih =>
    match q with
    | (m, c) =>
      show p.1 ∈ dfNames (applyExprs (setCol df m c) rest)
      rcases List.mem_cons.mp hp with h1 | h1
      · subst h1
        exact mem_dfNames_applyExprs_of_dfNames rest (setCol df m c) m
          (mem_dfNames_setCol_self df m c)
      · exact ih (setCol df m c) h1

theorem setColAux_map_fst_cases (l : List (String × Col)) (n m : String) (c : Col)
    (h : n ∈ (setColAux l m c).map Prod.fst) : n = m ∨ n ∈ l.map Prod.fst := by
  induction l with
  | nil =>
    rw [setColAux, List.map_singleton, List.mem_singleton] at h
    exact Or.inl h
  | cons p rest ih =>
    match p with
    | (k, old) =>
      rw [setColAux] at h
      split at h
      · rename_i hk
        subst hk
        rcases List.mem_cons.mp h with h1 | h1
        · exact Or.inl h1
        · exact Or.inr (List.mem_cons.mpr (Or.inr h1))
      · rcases List.mem_cons.mp h with h1 | h1
        · exact Or.inr (List.mem_cons.mpr (Or.inl h1))
        · rcases ih h1 with h2 | h2
          · exact Or.inl h2
          · exact Or.inr (List.mem_cons.mpr (Or.inr h2))

theorem mem_dfNames_setCol_cases (df : DF) (n m : String) (c : Col)
    (h : n ∈ dfNames (setCol df m c)) : n = m ∨ n ∈ dfNames df :=
  setColAux_map_fst_cases df.cols n m c h

theorem mem_dfNames_applyExprs_cases (ex : List (String × Col)) (df : DF) (n : String)
    (h : n ∈ dfNames (applyExprs df ex)) : n ∈ dfNames df ∨ n ∈ ex.map Prod.fst := by
  induction ex generalizing df with
  | nil => exact Or.inl h
  | cons q rest ih =>
    match q with
    | (m, c) =>
      rcases ih (setCol df m c) h with h1 | h1
      · rcases mem_dfNames_setCol_cases df n m c h1 with h2 | h2
        · right
          rw [List.map_cons, h2]
          exact List.mem_cons_self _ _
        · exact Or.inl h2
      · right
        rw [List.map_cons]
        exact List.mem_cons.mpr (Or.inr h1)

/-! Reading each cleaned column through `clean_raw_fields`. -/

theorem getCol_clean_beat (df : DF) :
    getCol (cleanRawFields df) "beat" = getCol df "beat" := by
  rw [cleanRawFields, cleanExprs]
  simp only [applyExprs_append]
  rw [peel_other _ df "location_description" "location_description" "location_description_raw"
      locationDescriptionCellFun "beat" (by decide) (by decide),
    peel_other _ df "block" "block" "block_raw" blockCellFun "beat" (by decide) (by decide),
    peel_other _ df "case_number" "case_number" "case_number_raw" caseNumberCellFun "beat"
      (by decide) (by decide),
    peel_other _ df "fbi_code" "fbi_code" "fbi_code_raw" fbiCodeCellFun "beat"
      (by decide) (by decide),
    peel_other _ df "description" "description" "description_raw" descriptionCellFun "beat"
      (by decide) (by decide),
    peel_other _ df "iucr" "iucr" "iucr_raw" iucrCellFun "beat" (by decide) (by decide),
    peel_other _ df "primary_type" "primary_type" "primary_type_raw" primaryTypeCellFun "beat"
      (by decide) (by decide),
    peel_other _ df "ward" "ward" "ward_raw" wardCellFun "beat" (by decide) (by decide),
    peel_other _ df "community_area" "community_area" "community_area_raw"
      communityAreaCellFun "beat" (by decide) (by decide),
    peel_other _ df "district" "district" "district_raw" districtCellFun "beat"
      (by decide) (by decide),
    peel_other _ df "beat" "beat_clean" "beat_raw" beatCellFun "beat" (by decide) (by decide)]

theorem getCol_clean_beat_clean (df : DF) :
    getCol (cleanRawFields df) "beat_clean" =
      match getCol df "beat" with
      | some col => some (col.map beatCellFun)
      | none => getCol df "beat_clean" := by
  rw [cleanRawFields, cleanExprs]
  simp only [applyExprs_append]
  rw [peel_other _ df "location_description" "location_description" "location_description_raw"
      locationDescriptionCellFun "beat_clean" (by decide) (by decide),
    peel_other _ df "block" "block" "block_raw" blockCellFun "beat_clean"
      (by decide) (by decide),
    peel_other _ df "case_number" "case_number" "case_number_raw" caseNumberCellFun "beat_clean"
      (by decide) (by decide),
    peel_other _ df "fbi_code" "fbi_code" "fbi_code_raw" fbiCodeCellFun "beat_clean"
      (by decide) (by decide),
    peel_other _ df "description" "description" "description_raw" descriptionCellFun "beat_clean"
      (by decide) (by decide),
    peel_other _ df "iucr" "iucr" "iucr_raw" iucrCellFun "beat_clean" (by decide) (by decide),
    peel_other _ df "primary_type" "primary_type" "primary_type_raw" primaryTypeCellFun
      "beat_clean" (by decide) (by decide),
    peel_other _ df "ward" "ward" "ward_raw" wardCellFun "beat_clean" (by decide) (by decide),
    peel_other _ df "community_area" "community_area" "community_area_raw"
      communityAreaCellFun "beat_clean" (by decide) (by decide),
    peel_other _ df "district" "district" "district_raw" districtCellFun "beat_clean"
      (by decide) (by decide),
    peel_dst _ df "beat" "beat_clean" "beat_raw" beatCellFun]

theorem getCol_clean_district (df : DF) :
    getCol (cleanRawFields df) "district" =
      (getCol df "district").map (fun col => col.map districtCellFun) := by
  rw [cleanRawFields, cleanExprs]
  simp only [applyExprs_append]
  rw [peel_other _ df "location_description" "location_description" "location_description_raw"
      locationDescriptionCellFun "district" (by decide) (by decide),
    peel_other _ df "block" "block" "block_raw" blockCellFun "district" (by decide) (by decide),
    peel_other _ df "case_number" "case_number" "case_number_raw" caseNumberCellFun "district"
      (by decide) (by decide),
    peel_other _ df "fbi_code" "fbi_code" "fbi_code_raw" fbiCodeCellFun "district"
      (by decide) (by decide),
    peel_other _ df "description" "description" "description_raw" descriptionCellFun "district"
      (by decide) (by decide),
    peel_other _ df "iucr" "iucr" "iucr_raw" iucrCellFun "district" (by decide) (by decide),
    peel_other _ df "primary_type" "primary_type" "primary_type_raw" primaryTypeCellFun
      "district" (by decide) (by decide),
    peel_other _ df "ward" "ward" "ward_raw" wardCellFun "district" (by decide) (by decide),
    peel_other _ df "community_area" "community_area" "community_area_raw"
      communityAreaCellFun "district" (by decide) (by decide),
    peel_dst _ df "district" "district" "district_raw" districtCellFun]
  match hc : getCol df "district" with
  | none =>
    rw [peel_other _ df "beat" "beat_clean" "beat_raw" beatCellFun "district"
      (by decide) (by decide), hc]
    rfl
  | some col => rfl

theorem getCol_clean_community_area (df : DF) :
    getCol (cleanRawFields df) "community_area" =
      (getCol df "community_area").map (fun col => col.map communityAreaCellFun) := by
  rw [cleanRawFields, cleanExprs]
  simp only [applyExprs_append]
  rw [peel_other _ df "location_description" "location_description" "location_description_raw"
      locationDescriptionCellFun "community_area" (by decide) (by decide),
    peel_other _ df "block" "block" "block_raw" blockCellFun "community_area"
      (by decide) (by decide),
    peel_other _ df "case_number" "case_number" "case_number_raw" caseNumberCellFun
      "community_area" (by decide) (by decide),
    peel_other _ df "fbi_code" "fbi_code" "fbi_code_raw" fbiCodeCellFun "community_area"
      (by decide) (by decide),
    peel_other _ df "description" "description" "description_raw" descriptionCellFun
      "community_area" (by decide) (by decide),
    peel_other _ df "iucr" "iucr" "iucr_raw" iucrCellFun "community_area"
      (by decide) (by decide),
    peel_other _ df "primary_type" "primary_type" "primary_type_raw" primaryTypeCellFun
      "community_area" (by decide) (by decide),
    peel_other _ df "ward" "ward" "ward_raw" wardCellFun "community_area"
      (by decide) (by decide),
    peel_dst _ df "community_area" "community_area" "community_area_raw" communityAreaCellFun]
  match hc : getCol df "community_area" with
  | none =>
    rw [peel_other _ df "district" "district" "district_raw" districtCellFun "community_area"
      (by decide) (by decide),
      peel_other _ df "beat" "beat_clean" "beat_raw" beatCellFun "community_area"
      (by decide) (by decide), hc]
    rfl
  | some col => rfl

theorem getCol_clean_ward (df : DF) :
    getCol (cleanRawFields df) "ward" =
      (getCol df "ward").map (fun col => col.map wardCellFun) := by
  rw [cleanRawFields, cleanExprs]
  simp only [applyExprs_append]
  rw [peel_other _ df "location_description" "location_description" "location_description_raw"
      locationDescriptionCellFun "ward" (by decide) (by decide),
    peel_other _ df "block" "block" "block_raw" blockCellFun "ward" (by decide) (by decide),
    peel_other _ df "case_number" "case_number" "case_number_raw" caseNumberCellFun "ward"
      (by decide) (by decide),
    peel_other _ df "fbi_code" "fbi_code" "fbi_code_raw" fbiCodeCellFun "ward"
      (by decide) (by decide),
    peel_other _ df "description" "description" "description_raw" descriptionCellFun "ward"
      (by decide) (by decide),
    peel_other _ df "iucr" "iucr" "iucr_raw" iucrCellFun "ward" (by decide) (by decide),
    peel_other _ df "primary_type" "primary_type" "primary_type_raw" primaryTypeCellFun "ward"
      (by decide) (by decide),
    peel_dst _ df "ward" "ward" "ward_raw" wardCellFun]
  match hc : getCol df "ward" with
  | none =>
    rw [peel_other _ df "community_area" "community_area" "community_area_raw"
      communityAreaCellFun "ward" (by decide) (by decide),
      peel_other _ df "district" "district" "district_raw" districtCellFun "ward"
      (by decide) (by decide),
      peel_other _ df "beat" "beat_clean" "beat_raw" beatCellFun "ward"
      (by decide) (by decide), hc]
    rfl
  | some col => rfl

theorem getCol_clean_iucr (df : DF) :
    getCol (cleanRawFields df) "iucr" =
      (getCol df "iucr").map (fun col => col.map iucrCellFun) := by
  rw [cleanRawFields, cleanExprs]
  simp only [applyExprs_append]
  rw [peel_other _ df "location_description" "location_description" "location_description_raw"
      locationDescriptionCellFun "iucr" (by decide) (by decide),
    peel_other _ df "block" "block" "block_raw" blockCellFun "iucr" (by decide) (by decide),
    peel_other _ df "case_number" "case_number" "case_number_raw" caseNumberCellFun "iucr"
      (by decide) (by decide),
    peel_other _ df "fbi_code" "fbi_code" "fbi_code_raw" fbiCodeCellFun "iucr"
      (by decide) (by decide),
    peel_other _ df "description" "description" "description_raw" descriptionCellFun "iucr"
      (by decide) (by decide),
    peel_dst _ df "iucr" "iucr" "iucr_raw" iucrCellFun]
  match hc : getCol df "iucr" with
  | none =>
    rw [peel_other _ df "primary_type" "primary_type" "primary_type_raw" primaryTypeCellFun
      "iucr" (by decide) (by decide),
      peel_other _ df "ward" "ward" "ward_raw" wardCellFun "iucr" (by decide) (by decide),
      peel_other _ df "community_area" "community_area" "community_area_raw"
      communityAreaCellFun "iucr" (by decide) (by decide),
      peel_other _ df "district" "district" "district_raw" districtCellFun "iucr"
      (by decide) (by decide),
      peel_other _ df "beat" "beat_clean" "beat_raw" beatCellFun "iucr"
      (by decide) (by decide), hc]
    rfl
  | some col => rfl

theorem getCol_clean_fbi_code (df : DF) :
    getCol (cleanRawFields df) "fbi_code" =
      (getCol df "fbi_code").map (fun col => col.map fbiCodeCellFun) := by
  rw [cleanRawFields, cleanExprs]
  simp only [applyExprs_append]
  rw [peel_other _ df "location_description" "location_description" "location_description_raw"
      locationDescriptionCellFun "fbi_code" (by decide) (by decide),
    peel_other _ df "block" "block" "block_raw" blockCellFun "fbi_code" (by decide) (by decide),
    peel_other _ df "case_number" "case_number" "case_number_raw" caseNumberCellFun "fbi_code"
      (by decide) (by decide),
    peel_dst _ df "fbi_code" "fbi_code" "fbi_code_raw" fbiCodeCellFun]
  match hc : getCol df "fbi_code" with
  | none =>
    rw [peel_other _ df "description" "description" "description_raw" descriptionCellFun
      "fbi_code" (by decide) (by decide),
      peel_other _ df "iucr" "iucr" "iucr_raw" iucrCellFun "fbi_code" (by decide) (by decide),
      peel_other _ df "primary_type" "primary_type" "primary_type_raw" primaryTypeCellFun
      "fbi_code" (by decide) (by decide),
      peel_other _ df "ward" "ward" "ward_raw" wardCellFun "fbi_code" (by decide) (by decide),
      peel_other _ df "community_area" "community_area" "community_area_raw"
      communityAreaCellFun "fbi_code" (by decide) (by decide),
      peel_other _ df "district" "district" "district_raw" districtCellFun "fbi_code"
      (by decide) (by decide),
      peel_other _ df "beat" "beat_clean" "beat_raw" beatCellFun "fbi_code"
      (by decide) (by decide), hc]
    rfl
  | some col => rfl

theorem getCol_clean_case_number (df : DF) :
    getCol (cleanRawFields df) "case_number" =
      (getCol df "case_number").map (fun col => col.map caseNumberCellFun) := by
  rw [cleanRawFields, cleanExprs]
  simp only [applyExprs_append]
  rw [peel_other _ df "location_description" "location_description" "location_description_raw"
      locationDescriptionCellFun "case_number" (by decide) (by decide),
    peel_other _ df "block" "block" "block_raw" blockCellFun "case_number"
      (by decide) (by decide),
    peel_dst _ df "case_number" "case_number" "case_number_raw" caseNumberCellFun]
  match hc : getCol df "case_number" with
  | none =>
    rw [peel_other _ df "fbi_code" "fbi_code" "fbi_code_raw" fbiCodeCellFun "case_number"
      (by decide) (by decide),
      peel_other _ df "description" "description" "description_raw" descriptionCellFun
      "case_number" (by decide) (by decide),
      peel_other _ df "iucr" "iucr" "iucr_raw" iucrCellFun "case_number"
      (by decide) (by decide),
      peel_other _ df "primary_type" "primary_type" "primary_type_raw" primaryTypeCellFun
      "case_number" (by decide) (by decide),
      peel_other _ df "ward" "ward" "ward_raw" wardCellFun "case_number"
      (by decide) (by decide),
      peel_other _ df "community_area" "community_area" "community_area_raw"
      communityAreaCellFun "case_number" (by decide) (by decide),
      peel_other _ df "district" "district" "district_raw" districtCellFun "case_number"
      (by decide) (by decide),
      peel_other _ df "beat" "beat_clean" "beat_raw" beatCellFun "case_number"
      (by decide) (by decide), hc]
    rfl
  | some col => rfl

theorem getCol_clean_primary_type (df : DF) :
    getCol (cleanRawFields df) "primary_type" =
      (getCol df "primary_type").map (fun col => col.map primaryTypeCellFun) := by
  rw [cleanRawFields, cleanExprs]
  simp only [applyExprs_append]
  rw [peel_other _ df "location_description" "location_description" "location_description_raw"
      locationDescriptionCellFun "primary_type" (by decide) (by decide),
    peel_other _ df "block" "block" "block_raw" blockCellFun "primary_type"
      (by decide) (by decide),
    peel_other _ df "case_number" "case_number" "case_number_raw" caseNumberCellFun
      "primary_type" (by decide) (by decide),
    peel_other _ df "fbi_code" "fbi_code" "fbi_code_raw" fbiCodeCellFun "primary_type"
      (by decide) (by decide),
    peel_other _ df "description" "description" "description_raw" descriptionCellFun
      "primary_type" (by decide) (by decide),
    peel_other _ df "iucr" "iucr" "iucr_raw" iucrCellFun "primary_type"
      (by decide) (by decide),
    peel_dst _ df "primary_type" "primary_type" "primary_type_raw" primaryTypeCellFun]
  match hc : getCol df "primary_type" with
  | none =>
    rw [peel_other _ df "ward" "ward" "ward_raw" wardCellFun "primary_type"
      (by decide) (by decide),
      peel_other _ df "community_area" "community_area" "community_area_raw"
      communityAreaCellFun "primary_type" (by decide) (by decide),
      peel_other _ df "district" "district" "district_raw" districtCellFun "primary_type"
      (by decide) (by decide),
      peel_other _ df "beat" "beat_clean" "beat_raw" beatCellFun "primary_type"
      (by decide) (by decide), hc]
    rfl
  | some col => rfl

theorem getCol_clean_description (df : DF) :
    getCol (cleanRawFields df) "description" =
      (getCol df "description").map (fun col => col.map descriptionCellFun) := by
  rw [cleanRawFields, cleanExprs]
  simp only [applyExprs_append]
  rw [peel_other _ df "location_description" "location_description" "location_description_raw"
      locationDescriptionCellFun "description" (by decide) (by decide),
    peel_other _ df "block" "block" "block_raw" blockCellFun "description"
      (by decide) (by decide),
    peel_other _ df "case_number" "case_number" "case_number_raw" caseNumberCellFun
      "description" (by decide) (by decide),
    peel_other _ df "fbi_code" "fbi_code" "fbi_code_raw" fbiCodeCellFun "description"
      (by decide) (by decide),
    peel_dst _ df "description" "description" "description_raw" descriptionCellFun]
  match hc : getCol df "description" with
  | none =>
    rw [peel_other _ df "iucr" "iucr" "iucr_raw" iucrCellFun "description"
      (by decide) (by decide),
      peel_other _ df "primary_type" "primary_type" "primary_type_raw" primaryTypeCellFun
      "description" (by decide) (by decide),
      peel_other _ df "ward" "ward" "ward_raw" wardCellFun "description"
      (by decide) (by decide),
      peel_other _ df "community_area" "community_area" "community_area_raw"
      communityAreaCellFun "description" (by decide) (by decide),
      peel_other _ df "district" "district" "district_raw" districtCellFun "description"
      (by decide) (by decide),
      peel_other _ df "beat" "beat_clean" "beat_raw" beatCellFun "description"
      (by decide) (by decide), hc]
    rfl
  | some col => rfl

theorem getCol_clean_block (df : DF) :
    getCol (cleanRawFields df) "block" =
      (getCol df "block").map (fun col => col.map blockCellFun) := by
  rw [cleanRawFields, cleanExprs]
  simp only [applyExprs_append]
  rw [peel_other _ df "location_description" "location_description" "location_description_raw"
      locationDescriptionCellFun "block" (by decide) (by decide),
    peel_dst _ df "block" "block" "block_raw" blockCellFun]
  match hc : getCol df "block" with
  | none =>
    rw [peel_other _ df "case_number" "case_number" "case_number_raw" caseNumberCellFun
      "block" (by decide) (by decide),
      peel_other _ df "fbi_code" "fbi_code" "fbi_code_raw" fbiCodeCellFun "block"
      (by decide) (by decide),
      peel_other _ df "description" "description" "description_raw" descriptionCellFun "block"
      (by decide) (by decide),
      peel_other _ df "iucr" "iucr" "iucr_raw" iucrCellFun "block" (by decide) (by decide),
      peel_other _ df "primary_type" "primary_type" "primary_type_raw" primaryTypeCellFun
      "block" (by decide) (by decide),
      peel_other _ df "ward" "ward" "ward_raw" wardCellFun "block" (by decide) (by decide),
      peel_other _ df "community_area" "community_area" "community_area_raw"
      communityAreaCellFun "block" (by decide) (by decide),
      peel_other _ df "district" "district" "district_raw" districtCellFun "block"
      (by decide) (by decide),
      peel_other _ df "beat" "beat_clean" "beat_raw" beatCellFun "block"
      (by decide) (by decide), hc]
    rfl
  | some col => rfl

theorem getCol_clean_location_description (df : DF) :
    getCol (cleanRawFields df) "location_description" =
      (getCol df "location_description").map
        (fun col => col.map locationDescriptionCellFun) := by
  rw [cleanRawFields, cleanExprs]
  simp only [applyExprs_append]
  rw [peel_dst _ df "location_description" "location_description" "location_description_raw"
    locationDescriptionCellFun]
  match hc : getCol df "location_description" with
  | none =>
    rw [peel_other _ df "block" "block" "block_raw" blockCellFun "location_description"
      (by decide) (by decide),
      peel_other _ df "case_number" "case_number" "case_number_raw" caseNumberCellFun
      "location_description" (by decide) (by decide),
      peel_other _ df "fbi_code" "fbi_code" "fbi_code_raw" fbiCodeCellFun
      "location_description" (by decide) (by decide),
      peel_other _ df "description" "description" "description_raw" descriptionCellFun
      "location_description" (by decide) (by decide),
      peel_other _ df "iucr" "iucr" "iucr_raw" iucrCellFun "location_description"
      (by decide) (by decide),
      peel_other _ df "primary_type" "primary_type" "primary_type_raw" primaryTypeCellFun
      "location_description" (by decide) (by decide),
      peel_other _ df "ward" "ward" "ward_raw" wardCellFun "location_description"
      (by decide) (by decide),
      peel_other _ df "community_area" "community_area" "community_area_raw"
      communityAreaCellFun "location_description" (by decide) (by decide),
      peel_other _ df "district" "district" "district_raw" districtCellFun
      "location_description" (by decide) (by decide),
      peel_other _ df "beat" "beat_clean" "beat_raw" beatCellFun "location_description"
      (by decide) (by decide), hc]
    rfl
  | some col => rfl

/-! Presence of the raw/cleaned column names after one run. -/

theorem lookup_isSome_iff (l : List (String × Col)) (n : String) :
    (l.lookup n).isSome = true ↔ n ∈ l.map Prod.fst := by
  induction l with
  | nil => simp
  | cons p rest ih =>
    match p with
    | (k, v) =>
      by_cases hk : n = k
      · subst hk
        rw [lookup_cons_eq]
        simp
      · rw [lookup_cons_ne k v rest n hk, List.map_cons]
        rw [ih]
        constructor
        · intro h; exact List.mem_cons.mpr (Or.inr h)
        · intro h
          rcases List.mem_cons.mp h with h1 | h1
          · exact absurd h1 hk
          · exact h1

theorem getCol_isSome_iff_mem (df : DF) (n : String) :
    (getCol df n).isSome = true ↔ n ∈ dfNames df :=
  lookup_isSome_iff df.cols n

theorem raw_present_after (df : DF) (s d r : String) (f : Option String → Option String)
    (hinj : ∀ p ∈ fieldExprs df s d r f, p ∈ cleanExprs df)
    (hs : (getCol df s).isSome = true) : r ∈ dfNames (cleanRawFields df) := by
  match hg : getCol df s with
  | none => rw [hg] at hs; exact absurd hs (by simp)
  | some col =>
    by_cases hr : (getCol df r).isSome = true
    · exact mem_dfNames_applyExprs_of_dfNames (cleanExprs df) df r
        ((getCol_isSome_iff_mem df r).mp hr)
    · have hmem : (r, col) ∈ fieldExprs df s d r f := by
        rw [fieldExprs, hg]
        simp only
        apply List.mem_append.mpr
        left
        rw [if_neg hr]
        exact List.mem_singleton.mpr rfl
      exact mem_dfNames_applyExprs_of_mem (cleanExprs df) df (r, col) (hinj _ hmem)

theorem dst_present_after (df : DF) (s d r : String) (f : Option String → Option String)
    (hinj : ∀ p ∈ fieldExprs df s d r f, p ∈ cleanExprs df)
    (hs : (getCol df s).isSome = true) : d ∈ dfNames (cleanRawFields df) := by
  match hg : getCol df s with
  | none => rw [hg] at hs; exact absurd hs (by simp)
  | some col =>
    have hmem : (d, col.map f) ∈ fieldExprs df s d r f := by
      rw [fieldExprs, hg]
      simp only
      apply List.mem_append.mpr
      right
      exact List.mem_singleton.mpr rfl
    exact mem_dfNames_applyExprs_of_mem (cleanExprs df) df (d, col.map f) (hinj _ hmem)

theorem mem_cleanExprs_1 (df : DF) :
    ∀ p ∈ fieldExprs df "beat" "beat_clean" "beat_raw" beatCellFun, p ∈ cleanExprs df := by
  intro p hp
  rw [cleanExprs]
  exact (List.mem_append.mpr (Or.inl (List.mem_append.mpr (Or.inl (List.mem_append.mpr (Or.inl (List.mem_append.mpr (Or.inl (List.mem_append.mpr (Or.inl (List.mem_append.mpr (Or.inl (List.mem_append.mpr (Or.inl (List.mem_append.mpr (Or.inl (List.mem_append.mpr (Or.inl (List.mem_append.mpr (Or.inl hp))))))))))))))))))))

theorem mem_cleanExprs_2 (df : DF) :
    ∀ p ∈ fieldExprs df "district" "district" "district_raw" districtCellFun, p ∈ cleanExprs df := by
  intro p hp
  rw [cleanExprs]
  exact (List.mem_append.mpr (Or.inl (List.mem_append.mpr (Or.inl (List.mem_append.mpr (Or.inl (List.mem_append.mpr (Or.inl (List.mem_append.mpr (Or.inl (List.mem_append.mpr (Or.inl (List.mem_append.mpr (Or.inl (List.mem_append.mpr (Or.inl (List.mem_append.mpr (Or.inl (List.mem_append.mpr (Or.inr hp))))))))))))))))))))

theorem mem_cleanExprs_3 (df : DF) :
    ∀ p ∈ fieldExprs df "community_area" "community_area" "community_area_raw" communityAreaCellFun, p ∈ cleanExprs df := by
  intro p hp
  rw [cleanExprs]
  exact (List.mem_append.mpr (Or.inl (List.mem_append.mpr (Or.inl (List.mem_append.mpr (Or.inl (List.mem_append.mpr (Or.inl (List.mem_append.mpr (Or.inl (List.mem_append.mpr (Or.inl (List.mem_append.mpr (Or.inl (List.mem_append.mpr (Or.inl (List.mem_append.mpr (Or.inr hp))))))))))))))))))

theorem mem_cleanExprs_4 (df : DF) :
    ∀ p ∈ fieldExprs df "ward" "ward" "ward_raw" wardCellFun, p ∈ cleanExprs df := by
  intro p hp
  rw [cleanExprs]
  exact (List.mem_append.mpr (Or.inl (List.mem_append.mpr (Or.inl (List.mem_append.mpr (Or.inl (List.mem_append.mpr (Or.inl (List.mem_append.mpr (Or.inl (List.mem_append.mpr (Or.inl (List.mem_append.mpr (Or.inl (List.mem_append.mpr (Or.inr hp))))))))))))))))

theorem mem_cleanExprs_5 (df : DF) :
    ∀ p ∈ fieldExprs df "primary_type" "primary_type" "primary_type_raw" primaryTypeCellFun, p ∈ cleanExprs df := by
  intro p hp
  rw [cleanExprs]
  exact (List.mem_append.mpr (Or.inl (List.mem_append.mpr (Or.inl (List.mem_append.mpr (Or.inl (List.mem_append.mpr (Or.inl (List.mem_append.mpr (Or.inl (List.mem_append.mpr (Or.inl (List.mem_append.mpr (Or.inr hp))))))))))))))

theorem mem_cleanExprs_6 (df : DF) :
    ∀ p ∈ fieldExprs df "iucr" "iucr" "iucr_raw" iucrCellFun, p ∈ cleanExprs df := by
  intro p hp
  rw [cleanExprs]
  exact (List.mem_append.mpr (Or.inl (List.mem_append.mpr (Or.inl (List.mem_append.mpr (Or.inl (List.mem_append.mpr (Or.inl (List.mem_append.mpr (Or.inl (List.mem_append.mpr (Or.inr hp))))))))))))

theorem mem_cleanExprs_7 (df : DF) :
    ∀ p ∈ fieldExprs df "description" "description" "description_raw" descriptionCellFun, p ∈ cleanExprs df := by
  intro p hp
  rw [cleanExprs]
  exact (List.mem_append.mpr (Or.inl (List.mem_append.mpr (Or.inl (List.mem_append.mpr (Or.inl (List.mem_append.mpr (Or.inl (List.mem_append.mpr (Or.inr hp))))))))))

theorem mem_cleanExprs_8 (df : DF) :
    ∀ p ∈ fieldExprs df "fbi_code" "fbi_code" "fbi_code_raw" fbiCodeCellFun, p ∈ cleanExprs df := by
  intro p hp
  rw [cleanExprs]
  exact (List.mem_append.mpr (Or.inl (List.mem_append.mpr (Or.inl (List.mem_append.mpr (Or.inl (List.mem_append.mpr (Or.inr hp))))))))

theorem mem_cleanExprs_9 (df : DF) :
    ∀ p ∈ fieldExprs df "case_number" "case_number" "case_number_raw" caseNumberCellFun, p ∈ cleanExprs df := by
  intro p hp
  rw [cleanExprs]
  exact (List.mem_append.mpr (Or.inl (List.mem_append.mpr (Or.inl (List.mem_append.mpr (Or.inr hp))))))

theorem mem_cleanExprs_10 (df : DF) :
    ∀ p ∈ fieldExprs df "block" "block" "block_raw" blockCellFun, p ∈ cleanExprs df := by
  intro p hp
  rw [cleanExprs]
  exact (List.mem_append.mpr (Or.inl (List.mem_append.mpr (Or.inr hp))))

theorem mem_cleanExprs_11 (df : DF) :
    ∀ p ∈ fieldExprs df "location_description" "location_description" "location_description_raw" locationDescriptionCellFun, p ∈ cleanExprs df := by
  intro p hp
  rw [cleanExprs]
  exact (List.mem_append.mpr (Or.inr hp))

/-- A second run of the Field Normalizer changes the column-name list not at all:
in particular no `_raw` column is duplicated. -/
theorem dfNames_cleanRawFields_stable (df : DF) :
    dfNames (cleanRawFields (cleanRawFields df)) = dfNames (cleanRawFields df) := by
  show dfNames (applyExprs (cleanRawFields df) (cleanExprs (cleanRawFields df)))
    = dfNames (cleanRawFields df)
  apply dfNames_applyExprs_of_all_mem
  intro p hp
  rw [cleanExprs] at hp
  rcases List.mem_append.mp hp with hp | h1
  ·
    rcases List.mem_append.mp hp with hp | h1
    ·
      rcases List.mem_append.mp hp with hp | h1
      ·
        rcases List.mem_append.mp hp with hp | h1
        ·
          rcases List.mem_append.mp hp with hp | h1
          ·
            rcases List.mem_append.mp hp with hp | h1
            ·
              rcases List.mem_append.mp hp with hp | h1
              ·
                rcases List.mem_append.mp hp with hp | h1
                ·
                  rcases List.mem_append.mp hp with hp | h1
                  ·
                    rcases List.mem_append.mp hp with hp | h1
                    ·
                      have h1 := hp
                      have hs1 := fieldExprs_src_present _ _ _ _ _ p h1
                      rw [getCol_clean_beat] at hs1
                      rcases fieldExprs_names _ _ _ _ _ p h1 with hq | hq
                      · rw [hq]; exact raw_present_after df _ _ _ _ (mem_cleanExprs_1 df) hs1
                      · rw [hq]; exact dst_present_after df _ _ _ _ (mem_cleanExprs_1 df) hs1
                    ·
                      have hs1 := fieldExprs_src_present _ _ _ _ _ p h1
                      rw [getCol_clean_district] at hs1
                      simp only [Option.isSome_map'] at hs1
                      rcases fieldExprs_names _ _ _ _ _ p h1 with hq | hq
                      · rw [hq]; exact raw_present_after df _ _ _ _ (mem_cleanExprs_2 df) hs1
                      · rw [hq]; exact dst_present_after df _ _ _ _ (mem_cleanExprs_2 df) hs1
                  ·
                    have hs1 := fieldExprs_src_present _ _ _ _ _ p h1
                    rw [getCol_clean_community_area] at hs1
                    simp only [Option.isSome_map'] at hs1
                    rcases fieldExprs_names _ _ _ _ _ p h1 with hq | hq
                    · rw [hq]; exact raw_present_after df _ _ _ _ (mem_cleanExprs_3 df) hs1
                    · rw [hq]; exact dst_present_after df _ _ _ _ (mem_cleanExprs_3 df) hs1
                ·
                  have hs1 := fieldExprs_src_present _ _ _ _ _ p h1
                  rw [getCol_clean_ward] at hs1
                  simp only [Option.isSome_map'] at hs1
                  rcases fieldExprs_names _ _ _ _ _ p h1 with hq | hq
                  · rw [hq]; exact raw_present_after df _ _ _ _ (mem_cleanExprs_4 df) hs1
                  · rw [hq]; exact dst_present_after df _ _ _ _ (mem_cleanExprs_4 df) hs1
              ·
                have hs1 := fieldExprs_src_present _ _ _ _ _ p h1
                rw [getCol_clean_primary_type] at hs1
                simp only [Option.isSome_map'] at hs1
                rcases fieldExprs_names _ _ _ _ _ p h1 with hq | hq
                · rw [hq]; exact raw_present_after df _ _ _ _ (mem_cleanExprs_5 df) hs1
                · rw [hq]; exact dst_present_after df _ _ _ _ (mem_cleanExprs_5 df) hs1
            ·
              have hs1 := fieldExprs_src_present _ _ _ _ _ p h1
              rw [getCol_clean_iucr] at hs1
              simp only [Option.isSome_map'] at hs1
              rcases fieldExprs_names _ _ _ _ _ p h1 with hq | hq
              · rw [hq]; exact raw_present_after df _ _ _ _ (mem_cleanExprs_6 df) hs1
              · rw [hq]; exact dst_present_after df _ _ _ _ (mem_cleanExprs_6 df) hs1
          ·
            have hs1 := fieldExprs_src_present _ _ _ _ _ p h1
            rw [getCol_clean_description] at hs1
            simp only [Option.isSome_map'] at hs1
            rcases fieldExprs_names _ _ _ _ _ p h1 with hq | hq
            · rw [hq]; exact raw_present_after df _ _ _ _ (mem_cleanExprs_7 df) hs1
            · rw [hq]; exact dst_present_after df _ _ _ _ (mem_cleanExprs_7 df) hs1
        ·
          have hs1 := fieldExprs_src_present _ _ _ _ _ p h1
          rw [getCol_clean_fbi_code] at hs1
          simp only [Option.isSome_map'] at hs1
          rcases fieldExprs_names _ _ _ _ _ p h1 with hq | hq
          · rw [hq]; exact raw_present_after df _ _ _ _ (mem_cleanExprs_8 df) hs1
          · rw [hq]; exact dst_present_after df _ _ _ _ (mem_cleanExprs_8 df) hs1
      ·
        have hs1 := fieldExprs_src_present _ _ _ _ _ p h1
        rw [getCol_clean_case_number] at hs1
        simp only [Option.isSome_map'] at hs1
        rcases fieldExprs_names _ _ _ _ _ p h1 with hq | hq
        · rw [hq]; exact raw_present_after df _ _ _ _ (mem_cleanExprs_9 df) hs1
        · rw [hq]; exact dst_present_after df _ _ _ _ (mem_cleanExprs_9 df) hs1
    ·
      have hs1 := fieldExprs_src_present _ _ _ _ _ p h1
      rw [getCol_clean_block] at hs1
      simp only [Option.isSome_map'] at hs1
      rcases fieldExprs_names _ _ _ _ _ p h1 with hq | hq
      · rw [hq]; exact raw_present_after df _ _ _ _ (mem_cleanExprs_10 df) hs1
      · rw [hq]; exact dst_present_after df _ _ _ _ (mem_cleanExprs_10 df) hs1
  ·
    have hs1 := fieldExprs_src_present _ _ _ _ _ p h1
    rw [getCol_clean_location_description] at hs1
    simp only [Option.isSome_map'] at hs1
    rcases fieldExprs_names _ _ _ _ _ p h1 with hq | hq
    · rw [hq]; exact raw_present_after df _ _ _ _ (mem_cleanExprs_11 df) hs1
    · rw [hq]; exact dst_present_after df _ _ _ _ (mem_cleanExprs_11 df) hs1

/-! Idempotence of the stable cell functions, lifted to columns. -/

theorem beatCellFun_idem (v : Option String) : beatCellFun (beatCellFun v) = beatCellFun v := by
  match v with
  | none => rfl
  | some s =>
    show beatCellFun (cleanBeat s) = cleanBeat s
    match hc : cleanBeat s with
    | none => rfl
    | some t => exact cleanBeat_fix s t hc

theorem districtCellFun_idem (v : Option String) :
    districtCellFun (districtCellFun v) = districtCellFun v := by
  match v with
  | none => rfl
  | some s =>
    show districtCellFun (cleanGeo3 s) = cleanGeo3 s
    match hc : cleanGeo3 s with
    | none => rfl
    | some t => exact cleanGeo3_fix s t hc

theorem communityAreaCellFun_idem (v : Option String) :
    communityAreaCellFun (communityAreaCellFun v) = communityAreaCellFun v := by
  match v with
  | none => rfl
  | some s =>
    show communityAreaCellFun (cleanGeo3 s) = cleanGeo3 s
    match hc : cleanGeo3 s with
    | none => rfl
    | some t => exact cleanGeo3_fix s t hc

theorem wardCellFun_idem (v : Option String) : wardCellFun (wardCellFun v) = wardCellFun v := by
  match v with
  | none => rfl
  | some s =>
    show wardCellFun (cleanWard s) = cleanWard s
    match hc : cleanWard s with
    | none => rfl
    | some t => exact cleanWard_fix s t hc

theorem iucrCellFun_idem (v : Option String) : iucrCellFun (iucrCellFun v) = iucrCellFun v := by
  match v with
  | none => rfl
  | some s => show some (cleanIucr (cleanIucr s)) = some (cleanIucr s); rw [cleanIucr_fix]

theorem fbiCodeCellFun_idem (v : Option String) :
    fbiCodeCellFun (fbiCodeCellFun v) = fbiCodeCellFun v := by
  match v with
  | none => rfl
  | some s => show some (cleanFbiCode (cleanFbiCode s)) = some (cleanFbiCode s)
              rw [cleanFbiCode_fix]

theorem caseNumberCellFun_idem (v : Option String) :
    caseNumberCellFun (caseNumberCellFun v) = caseNumberCellFun v := by
  match v with
  | none => rfl
  | some s => show some (cleanCaseNumber (cleanCaseNumber s)) = some (cleanCaseNumber s)
              rw [cleanCaseNumber_fix]

theorem col_map_idem (f : Option String → Option String) (hf : ∀ v, f (f v) = f v)
    (col : Col) : (col.map f).map f = col.map f := by
  rw [List.map_map]
  exact List.map_congr_left (fun a _ => hf a)

theorem getCol_clean_clean_beat_clean (df : DF) :
    getCol (cleanRawFields (cleanRawFields df)) "beat_clean" =
      getCol (cleanRawFields df) "beat_clean" := by
  rw [getCol_clean_beat_clean (cleanRawFields df), getCol_clean_beat df,
    getCol_clean_beat_clean df]
  match getCol df "beat" with
  | none => rfl
  | some col => rfl

theorem getCol_clean_clean_district (df : DF) :
    getCol (cleanRawFields (cleanRawFields df)) "district" =
      getCol (cleanRawFields df) "district" := by
  rw [getCol_clean_district (cleanRawFields df), getCol_clean_district df]
  match getCol df "district" with
  | none => rfl
  | some col =>
    show some ((col.map districtCellFun).map districtCellFun) = some (col.map districtCellFun)
    rw [col_map_idem _ districtCellFun_idem]

theorem getCol_clean_clean_community_area (df : DF) :
    getCol (cleanRawFields (cleanRawFields df)) "community_area" =
      getCol (cleanRawFields df) "community_area" := by
  rw [getCol_clean_community_area (cleanRawFields df), getCol_clean_community_area df]
  match getCol df "community_area" with
  | none => rfl
  | some col =>
    show some ((col.map communityAreaCellFun).map communityAreaCellFun)
      = some (col.map communityAreaCellFun)
    rw [col_map_idem _ communityAreaCellFun_idem]

theorem getCol_clean_clean_ward (df : DF) :
    getCol (cleanRawFields (cleanRawFields df)) "ward" =
      getCol (cleanRawFields df) "ward" := by
  rw [getCol_clean_ward (cleanRawFields df), getCol_clean_ward df]
  match getCol df "ward" with
  | none => rfl
  | some col =>
    show some ((col.map wardCellFun).map wardCellFun) = some (col.map wardCellFun)
    rw [col_map_idem _ wardCellFun_idem]

theorem getCol_clean_clean_iucr (df : DF) :
    getCol (cleanRawFields (cleanRawFields df)) "iucr" =
      getCol (cleanRawFields df) "iucr" := by
  rw [getCol_clean_iucr (cleanRawFields df), getCol_clean_iucr df]
  match getCol df "iucr" with
  | none => rfl
  | some col =>
    show some ((col.map iucrCellFun).map iucrCellFun) = some (col.map iucrCellFun)
    rw [col_map_idem _ iucrCellFun_idem]

theorem getCol_clean_clean_fbi_code (df : DF) :
    getCol (cleanRawFields (cleanRawFields df)) "fbi_code" =
      getCol (cleanRawFields df) "fbi_code" := by
  rw [getCol_clean_fbi_code (cleanRawFields df), getCol_clean_fbi_code df]
  match getCol df "fbi_code" with
  | none => rfl
  | some col =>
    show some ((col.map fbiCodeCellFun).map fbiCodeCellFun) = some (col.map fbiCodeCellFun)
    rw [col_map_idem _ fbiCodeCellFun_idem]

theorem getCol_clean_clean_case_number (df : DF) :
    getCol (cleanRawFields (cleanRawFields df)) "case_number" =
      getCol (cleanRawFields df) "case_number" := by
  rw [getCol_clean_case_number (cleanRawFields df), getCol_clean_case_number df]
  match getCol df "case_number" with
  | none => rfl
  | some col =>
    show some ((col.map caseNumberCellFun).map caseNumberCellFun)
      = some (col.map caseNumberCellFun)
    rw [col_map_idem _ caseNumberCellFun_idem]

/-- C9 (counterexample): the Field Normalizer is not idempotent.  On a batch whose
`primary_type` is `"CRIM SEXUAL ASSAULT"` the first run yields
`"crim_sexual_assault"`; the second run's punctuation filter
(`[^0-9A-Za-z\s]`) strips the underscores the first run inserted, changing an
already-canonical value. -/
theorem C9_counterexample :
    getCol (cleanRawFields (cleanRawFields
        (DF.mk [("primary_type", [some "CRIM SEXUAL ASSAULT"])]))) "primary_type" ≠
      getCol (cleanRawFields
        (DF.mk [("primary_type", [some "CRIM SEXUAL ASSAULT"])])) "primary_type" := by
  rw [getCol_clean_primary_type, getCol_clean_primary_type]
  decide

/-- C9 (amended): a second application of the Field Normalizer adds no duplicate
`_raw` column — the column-name list is unchanged — and leaves the cleaned
`beat_clean`, `district`, `community_area`, `ward`, `iucr`, `fbi_code` and
`case_number` columns unchanged.  It is not a full fixed point: `primary_type`
(see the counterexample), `description` and `block` values can change again. -/
theorem C9_second_normalizer_run (df : DF) :
    dfNames (cleanRawFields (cleanRawFields df)) = dfNames (cleanRawFields df) ∧
    getCol (cleanRawFields (cleanRawFields df)) "beat_clean"
      = getCol (cleanRawFields df) "beat_clean" ∧
    getCol (cleanRawFields (cleanRawFields df)) "district"
      = getCol (cleanRawFields df) "district" ∧
    getCol (cleanRawFields (cleanRawFields df)) "community_area"
      = getCol (cleanRawFields df) "community_area" ∧
    getCol (cleanRawFields (cleanRawFields df)) "ward"
      = getCol (cleanRawFields df) "ward" ∧
    getCol (cleanRawFields (cleanRawFields df)) "iucr"
      = getCol (cleanRawFields df) "iucr" ∧
    getCol (cleanRawFields (cleanRawFields df)) "fbi_code"
      = getCol (cleanRawFields df) "fbi_code" ∧
    getCol (cleanRawFields (cleanRawFields df)) "case_number"
      = getCol (cleanRawFields df) "case_number" :=
  ⟨dfNames_cleanRawFields_stable df, getCol_clean_clean_beat_clean df,
    getCol_clean_clean_district df, getCol_clean_clean_community_area df,
    getCol_clean_clean_ward df, getCol_clean_clean_iucr df,
    getCol_clean_clean_fbi_code df, getCol_clean_clean_case_number df⟩

/-! ## The Feature Enricher `add_features`

Per-record model.  Nullable cells are `Option`; polars' Kleene logic for
boolean `&`/`|` over nulls is modelled by `kand`/`kor`; `pl.when` treats a null
condition as false, which the `when`-chain models below reproduce via
`= some true` tests.  Coordinates (Float64 in the source) are modelled as exact
rationals; the only float-specific behaviour the claims touch is null
propagation and the rounding to 4 decimals. -/

/-- Kleene OR of nullable booleans (polars `|`). -/
def kor : Option Bool → Option Bool → Option Bool
  | some true, _ => some true
  | _, some true => some true
  | some false, some false => some false
  | _, _ => none

/-- Kleene AND of nullable booleans (polars `&`). -/
def kand : Option Bool → Option Bool → Option Bool
  | some false, _ => some false
  | _, some false => some false
  | some true, some true => some true
  | _, _ => none

def knot (v : Option Bool) : Option Bool := v.map (fun b => !b)

/-- `cast(pl.Int32)` on a boolean column. -/
def b2i (v : Option Bool) : Option Int := v.map (fun b => if b then 1 else 0)

def omul (c : Int) (v : Option Int) : Option Int := v.map (fun x => c * x)

def oadd : Option Int → Option Int → Option Int
  | some a, some b => some (a + b)
  | _, _ => none

/-- `is_between(lo, hi)` (inclusive on both ends) on a nullable rational column. -/
def obetween (v : Option ℚ) (lo hi : ℚ) : Option Bool :=
  v.map (fun x => decide (lo ≤ x ∧ x ≤ hi))

/-- `is_in(values)` on a nullable string column (null input gives null). -/
def oisin (v : Option String) (l : List String) : Option Bool :=
  v.map (fun s => decide (s ∈ l))

def toLowerStr (s : String) : String := String.mk (lowerList s.data)

def toUpperStr (s : String) : String := String.mk (upperList s.data)

/-- A parsed `date` value as produced by `str.strptime` (year/month/day/hour,
polars weekday 1 = Monday … 7 = Sunday, ISO week). -/
structure PDate where
  year : Int
  month : Nat
  day : Nat
  hour : Nat
  weekday : Nat
  isoWeek : Nat
deriving DecidableEq

/-- The incident record entering `add_features` (after `clean_raw_fields` and the
defensive casts); unparsable dates are already `none`. -/
structure SilverIn where
  latitude : Option ℚ
  longitude : Option ℚ
  id : Option Int
  primary_type : Option String
  fbi_code : Option String
  arrest : Option String
  domestic : Option String
  ward : Option String
  community_area : Option String
  date : Option PDate
deriving DecidableEq

def violent_types : List String :=
  ["BATTERY", "ASSAULT", "HOMICIDE", "ROBBERY", "CRIM SEXUAL ASSAULT"]

def property_types : List String :=
  ["BURGLARY", "THEFT", "MOTOR VEHICLE THEFT", "ARSON"]

def drug_types : List String := ["NARCOTICS", "OTHER NARCOTIC VIOLATION"]

def public_order_types : List String :=
  ["PUBLIC PEACE VIOLATION", "INTERFERENCE WITH PUBLIC OFFICER"]

def weapon_types : List String :=
  ["WEAPONS VIOLATION", "UNLAWFUL USE OF WEAPON", "CONCEALED CARRY LICENSE VIOLATION"]

def fbi_map : List (String × String) :=
  [("01A", "Homicide"), ("01B", "Manslaughter"), ("02", "Sexual Assault"), ("03", "Robbery"),
   ("04A", "Aggravated Assault/Battery"), ("04B", "Simple Assault/Battery"), ("05", "Burglary"),
   ("06", "Theft"), ("07", "Motor Vehicle Theft"), ("08A", "Arson"), ("08B", "Criminal Damage"),
   ("09", "Fraud"), ("10", "Forgery/Counterfeiting"), ("11", "Embezzlement"),
   ("12", "Stolen Property"), ("13", "Vandalism"), ("14", "Weapons Violation"),
   ("15", "Prostitution"), ("16", "Sex Offense (Other)"), ("17", "Drug Violation"),
   ("18", "Gambling"), ("19", "Offense Against Family/Children"), ("20", "Driving Offenses"),
   ("21", "Liquor Law Violation"), ("22", "Public Order Crime"), ("24", "Disorderly Conduct"),
   ("26", "Miscellaneous Offense")]

def severity_map : List (String × Int) :=
  [("Homicide", 5), ("Manslaughter", 4), ("Sexual Assault", 4), ("Robbery", 4),
   ("Aggravated Assault/Battery", 4), ("Arson", 4), ("Burglary", 3),
   ("Motor Vehicle Theft", 3), ("Weapons Violation", 3), ("Drug Violation", 2),
   ("Fraud", 2), ("Forgery/Counterfeiting", 2), ("Disorderly Conduct", 1),
   ("Vandalism", 1), ("Public Order Crime", 1), ("Miscellaneous Offense", 1)]

def severity_labels : List (Int × String) :=
  [(5, "Critical"), (4, "High"), (3, "Moderate"), (2, "Low"), (1, "Minor"), (0, "Unknown")]

/-- Uppercase then strip edge whitespace, as applied to `primary_type`/`fbi_code`
inside `add_features`. -/
def normCode (v : Option String) : Option String :=
  v.map (fun s => String.mk (trimList (upperList s.data)))

/-- `pl.when(cond).then(True).otherwise(False)` over a lowercased `is_in`:
null input falls to the otherwise branch. -/
def truthyFlag (v : Option String) : Bool :=
  match v with
  | some s => decide (toLowerStr s ∈ ["true", "t", "1", "yes", "y"])
  | none => false

/-- Latitude after the (0,0) sentinel clearing. -/
def latAdj (r : SilverIn) : Option ℚ :=
  if r.latitude = some 0 ∧ r.longitude = some 0 then none else r.latitude

/-- Longitude after the (0,0) sentinel clearing. -/
def lonAdj (r : SilverIn) : Option ℚ :=
  if r.latitude = some 0 ∧ r.longitude = some 0 then none else r.longitude

/-- `round(4)`: rounding to 4 decimal places. -/
def round4 (q : ℚ) : ℚ := (round (q * 10000) : ℚ) / 10000

def latBinOf (r : SilverIn) : Option ℚ := (latAdj r).map round4

def lonBinOf (r : SilverIn) : Option ℚ := (lonAdj r).map round4

/-- Text rendering of a rational bin value; the source renders the Float64 bin in
decimal notation — only injectivity and null propagation matter here. -/
def qStr (q : ℚ) : String :=
  String.mk (renderInt q.num) ++ "/" ++ String.mk (renderNat q.den)

/-- Count of non-null `id` over the (lat_bin, lon_bin) window of the batch. -/
def densityOf (batch : List SilverIn) (r : SilverIn) : Nat :=
  batch.countP (fun r2 =>
    latBinOf r2 == latBinOf r && lonBinOf r2 == lonBinOf r && r2.id.isSome)

theorem densityOf_singleton_self (r : SilverIn) (h : r.id.isSome = true) :
    densityOf [r] r = 1 := by
  simp [densityOf, h]

/-- The enriched record: one field per derived column of `add_features`. -/
structure EnrichedRow where
  latitude : Option ℚ
  longitude : Option ℚ
  id : Option Int
  primary_type : Option String
  fbi_code : Option String
  arrest : Bool
  domestic : Bool
  ward_out_of_range : Option Bool
  community_area_out_of_range : Option Bool
  year : Option Int
  quarter : Option Nat
  month : Option Nat
  day : Option Nat
  hour : Option Nat
  day_of_week_num : Option Nat
  week_of_year : Option Nat
  is_weekend : Option Bool
  is_weekday : Option Bool
  is_daytime : Option Bool
  is_nighttime : Option Bool
  is_am : Option Bool
  is_pm : Option Bool
  is_business_hours : Option Bool
  is_off_business_hours : Option Bool
  is_school_hours : Option Bool
  is_late_night : Option Bool
  part_of_day : String
  season : String
  is_holiday : Option Bool
  is_missing_lat : Option Bool
  is_missing_lon : Option Bool
  lat_out_of_range : Option Bool
  lon_out_of_range : Option Bool
  is_bad_location : Option Bool
  lat_bin : Option ℚ
  lon_bin : Option ℚ
  geo_grid : Option String
  distance_from_downtown_km : Option ℚ
  crime_density_bin : Nat
  is_violent : Option Bool
  is_property : Option Bool
  is_drug_related : Option Bool
  is_public_order : Option Bool
  is_weapon_related : Option Bool
  fbi_category : String
  crime_severity_level : Int
  crime_severity_label : String
  is_violent_fbi : Option Bool
  is_property_fbi : Option Bool
  is_violent_combined : Option Bool
  is_property_combined : Option Bool
  crime_risk_score : Option Int
  high_risk_situation : Option Bool
  crime_category : String
  text_lat_bin : Option String
  text_lon_bin : Option String
deriving DecidableEq

def erPt (r : SilverIn) : Option String := normCode r.primary_type

def erFbi (r : SilverIn) : Option String := normCode r.fbi_code

def erIsViolent (r : SilverIn) : Option Bool := oisin (erPt r) violent_types

def erIsProperty (r : SilverIn) : Option Bool := oisin (erPt r) property_types

def erIsDrug (r : SilverIn) : Option Bool := oisin (erPt r) drug_types

def erIsPublicOrder (r : SilverIn) : Option Bool := oisin (erPt r) public_order_types

def erIsWeapon (r : SilverIn) : Option Bool := oisin (erPt r) weapon_types

def erIsViolentFbi (r : SilverIn) : Option Bool :=
  oisin (erFbi r) ["01A", "01B", "02", "03", "04A", "04B"]

def erIsPropertyFbi (r : SilverIn) : Option Bool :=
  oisin (erFbi r) ["05", "06", "07", "08A", "08B", "09", "10", "11", "12", "13"]

def erVComb (r : SilverIn) : Option Bool := kor (erIsViolent r) (erIsViolentFbi r)

def erPComb (r : SilverIn) : Option Bool := kor (erIsProperty r) (erIsPropertyFbi r)

def erIsWeekend (r : SilverIn) : Option Bool :=
  r.date.map (fun d => decide (5 ≤ d.weekday))

def erIsWeekday (r : SilverIn) : Option Bool :=
  r.date.map (fun d => decide (d.weekday < 5))

def erIsDay (r : SilverIn) : Option Bool :=
  r.date.map (fun d => decide (6 ≤ d.hour ∧ d.hour ≤ 18))

def erIsNight (r : SilverIn) : Option Bool :=
  r.date.map (fun d => !(decide (6 ≤ d.hour ∧ d.hour ≤ 18)))

def erFbiCat (r : SilverIn) : String :=
  match erFbi r with
  | some code => (fbi_map.lookup code).getD "Unknown"
  | none => "Unknown"

def erSevLevel (r : SilverIn) : Int := (severity_map.lookup (erFbiCat r)).getD 0

def erSevLabel (r : SilverIn) : String :=
  (severity_labels.lookup (erSevLevel r)).getD "Unknown"

def erWardRange (r : SilverIn) : Option Bool :=
  knot ((r.ward.bind (fun s => castInt64 s.data)).map
    (fun i => decide (1 ≤ i ∧ i ≤ 50)))

def erCommRange (r : SilverIn) : Option Bool :=
  knot ((r.community_area.bind (fun s => castInt64 s.data)).map
    (fun i => decide (1 ≤ i ∧ i ≤ 100)))

def erYear (r : SilverIn) : Option Int := r.date.map (fun d => d.year)

def erQuarter (r : SilverIn) : Option Nat := r.date.map (fun d => (d.month + 2) / 3)

def erMonth (r : SilverIn) : Option Nat := r.date.map (fun d => d.month)

def erDay (r : SilverIn) : Option Nat := r.date.map (fun d => d.day)

def erHour (r : SilverIn) : Option Nat := r.date.map (fun d => d.hour)

def erDow (r : SilverIn) : Option Nat := r.date.map (fun d => d.weekday)

def erWeek (r : SilverIn) : Option Nat := r.date.map (fun d => d.isoWeek)

def erIsAm (r : SilverIn) : Option Bool := r.date.map (fun d => decide (d.hour ≤ 11))

def erIsPm (r : SilverIn) : Option Bool := r.date.map (fun d => !(decide (d.hour ≤ 11)))

def erIsBusiness (r : SilverIn) : Option Bool :=
  r.date.map (fun d => decide (9 ≤ d.hour ∧ d.hour ≤ 17))

def erIsOffBusiness (r : SilverIn) : Option Bool :=
  r.date.map (fun d => !(decide (9 ≤ d.hour ∧ d.hour ≤ 17)))

def erIsSchool (r : SilverIn) : Option Bool :=
  kand (r.date.map (fun d => decide (8 ≤ d.hour ∧ d.hour ≤ 15))) (erIsWeekday r)

def erIsLateNight (r : SilverIn) : Option Bool :=
  r.date.map (fun d => decide (d.hour ≤ 5))

def erPartOfDay (r : SilverIn) : String :=
  match r.date with
  | some d =>
    if d.hour < 6 then "Night"
    else if d.hour < 12 then "Morning"
    else if d.hour < 18 then "Afternoon"
    else "Evening"
  | none => "Evening"

def erSeason (r : SilverIn) : String :=
  match r.date with
  | some d =>
    if d.month ∈ [12, 1, 2] then "Winter"
    else if d.month ∈ [3, 4, 5] then "Spring"
    else if d.month ∈ [6, 7, 8] then "Summer"
    else if d.month ∈ [9, 10, 11] then "Fall"
    else "Unknown"
  | none => "Unknown"

def erIsHoliday (holidayDates : List (Int × Nat × Nat)) (r : SilverIn) : Option Bool :=
  r.date.map (fun d => decide ((d.year, d.month, d.day) ∈ holidayDates))

def erMissingLat (r : SilverIn) : Option Bool := some r.latitude.isNone

def erMissingLon (r : SilverIn) : Option Bool := some r.longitude.isNone

def erLatRange (r : SilverIn) : Option Bool := knot (obetween r.latitude (-90) 90)

def erLonRange (r : SilverIn) : Option Bool := knot (obetween r.longitude (-180) 180)

def erBadLocation (r : SilverIn) : Option Bool :=
  kor (kor (kor (some r.latitude.isNone) (some r.longitude.isNone))
    (knot (obetween r.latitude (-90) 90))) (knot (obetween r.longitude (-180) 180))

def erGeoGrid (r : SilverIn) : Option String :=
  (latBinOf r).bind (fun a => (lonBinOf r).map (fun b => qStr a ++ "_" ++ qStr b))

def erDistance (r : SilverIn) : Option ℚ :=
  (latAdj r).bind (fun la => (lonAdj r).map (fun lo =>
    (111 * (la - 41.8781)) ^ 2 + (85 * (lo + 87.6298)) ^ 2))

def erRisk (r : SilverIn) : Option Int :=
  oadd (oadd (omul 3 (b2i (erVComb r))) (omul 2 (b2i (erPComb r)))) (b2i (erIsDrug r))

def erHighRisk (r : SilverIn) : Option Bool :=
  kor (kand (erVComb r) (erIsNight r)) (kand (erIsWeapon r) (erIsWeekend r))

def erCategory (r : SilverIn) : String :=
  if erVComb r = some true then "Violent Crime"
  else if erPComb r = some true then "Property Crime"
  else if erIsDrug r = some true then "Drug Crime"
  else if erIsWeapon r = some true then "Weapons Crime"
  else if erIsPublicOrder r = some true then "Public Order Crime"
  else "Other"

def erTextLat (r : SilverIn) : Option String := (latBinOf r).map qStr

def erTextLon (r : SilverIn) : Option String := (lonBinOf r).map qStr

/-- The per-record body of `add_features`.  `holidayDates` is the injected
observed-holiday calendar ((year, month, day) triples); `batch` supplies the
window for the `crime_density_bin` count.  Each derived column is its own
small definition above; this assembles the enriched record. -/
def enrichRow (holidayDates : List (Int × Nat × Nat)) (batch : List SilverIn)
    (r : SilverIn) : EnrichedRow :=
  { latitude := latAdj r
    longitude := lonAdj r
    id := r.id
    primary_type := erPt r
    fbi_code := erFbi r
    arrest := truthyFlag r.arrest
    domestic := truthyFlag r.domestic
    ward_out_of_range := erWardRange r
    community_area_out_of_range := erCommRange r
    year := erYear r
    quarter := erQuarter r
    month := erMonth r
    day := erDay r
    hour := erHour r
    day_of_week_num := erDow r
    week_of_year := erWeek r
    is_weekend := erIsWeekend r
    is_weekday := erIsWeekday r
    is_daytime := erIsDay r
    is_nighttime := erIsNight r
    is_am := erIsAm r
    is_pm := erIsPm r
    is_business_hours := erIsBusiness r
    is_off_business_hours := erIsOffBusiness r
    is_school_hours := erIsSchool r
    is_late_night := erIsLateNight r
    part_of_day := erPartOfDay r
    season := erSeason r
    is_holiday := erIsHoliday holidayDates r
    is_missing_lat := erMissingLat r
    is_missing_lon := erMissingLon r
    lat_out_of_range := erLatRange r
    lon_out_of_range := erLonRange r
    is_bad_location := erBadLocation r
    lat_bin := latBinOf r
    lon_bin := lonBinOf r
    geo_grid := erGeoGrid r
    distance_from_downtown_km := erDistance r
    crime_density_bin := densityOf batch r
    is_violent := erIsViolent r
    is_property := erIsProperty r
    is_drug_related := erIsDrug r
    is_public_order := erIsPublicOrder r
    is_weapon_related := erIsWeapon r
    fbi_category := erFbiCat r
    crime_severity_level := erSevLevel r
    crime_severity_label := erSevLabel r
    is_violent_fbi := erIsViolentFbi r
    is_property_fbi := erIsPropertyFbi r
    is_violent_combined := erVComb r
    is_property_combined := erPComb r
    crime_risk_score := erRisk r
    high_risk_situation := erHighRisk r
    crime_category := erCategory r
    text_lat_bin := erTextLat r
    text_lon_bin := erTextLon r }

/-- The batch-level Feature Enricher: every row flows through (none dropped). -/
def enrichBatch (holidayDates : List (Int × Nat × Nat)) (batch : List SilverIn) :
    List EnrichedRow :=
  batch.map (enrichRow holidayDates batch)

/-- The required-column check at the entry of `add_features` (column names are
lowercased first; the raised error carries the missing-column list). -/
def requiredColumns : List String :=
  ["latitude", "longitude", "beat", "district", "ward",
   "community_area", "primary_type", "fbi_code", "id", "date"]

def addFeaturesSchemaCheck (cols : List String) : Except (List String) Unit :=
  if ((requiredColumns.map toLowerStr).filter
      (fun c => decide (c ∉ cols.map toLowerStr))).isEmpty then
    Except.ok ()
  else
    Except.error ((requiredColumns.map toLowerStr).filter
      (fun c => decide (c ∉ cols.map toLowerStr)))

theorem kor_eq_some_true_iff (a b : Option Bool) :
    kor a b = some true ↔ a = some true ∨ b = some true := by
  rcases a with _ | a
  · rcases b with _ | b
    · decide
    · cases b <;> decide
  · rcases b with _ | b
    · cases a <;> decide
    · cases a <;> cases b <;> decide

theorem kand_eq_some_true_iff (a b : Option Bool) :
    kand a b = some true ↔ a = some true ∧ b = some true := by
  rcases a with _ | a
  · rcases b with _ | b
    · decide
    · cases b <;> decide
  · rcases b with _ | b
    · cases a <;> decide
    · cases a <;> cases b <;> decide

/-- C1: for every enriched record, `crime_risk_score` equals
`3*is_violent_combined + 2*is_property_combined + 1*is_drug_related` exactly,
in integer arithmetic with the boolean flags cast to 0/1 (all null-propagating,
exactly as the polars expressions behave). -/
theorem C1_crime_risk_score (hd : List (Int × Nat × Nat)) (batch : List SilverIn)
    (r : SilverIn) :
    (enrichRow hd batch r).crime_risk_score =
      oadd (oadd (omul 3 (b2i (enrichRow hd batch r).is_violent_combined))
        (omul 2 (b2i (enrichRow hd batch r).is_property_combined)))
        (omul 1 (b2i (enrichRow hd batch r).is_drug_related)) := by
  have h1 : ∀ v : Option Int, omul 1 v = v := by
    intro v
    cases v
    · rfl
    · simp [omul]
  rw [h1]
  rfl

/-- C10: `high_risk_situation` is true exactly when
(violent-combined and nighttime) or (weapon-related and weekend); with polars
Kleene logic the flag is `some true` iff the corresponding conjuncts are. -/
theorem C10_high_risk_situation (hd : List (Int × Nat × Nat)) (batch : List SilverIn)
    (r : SilverIn) :
    (enrichRow hd batch r).high_risk_situation = some true ↔
      ((enrichRow hd batch r).is_violent_combined = some true ∧
        (enrichRow hd batch r).is_nighttime = some true) ∨
      ((enrichRow hd batch r).is_weapon_related = some true ∧
        (enrichRow hd batch r).is_weekend = some true) := by
  rw [show (enrichRow hd batch r).high_risk_situation =
    kor (kand (enrichRow hd batch r).is_violent_combined
        (enrichRow hd batch r).is_nighttime)
      (kand (enrichRow hd batch r).is_weapon_related
        (enrichRow hd batch r).is_weekend) from rfl]
  rw [kor_eq_some_true_iff, kand_eq_some_true_iff, kand_eq_some_true_iff]

/-- C5: a (0,0) sentinel coordinate pair is cleared to null before any spatial
derivation: the enriched coordinates are null, the spatial bins, grid key and
distance are null, and the density count is taken over the null-bin group
(no cluster at the origin). -/
theorem C5_sentinel_zero_coordinates (hd : List (Int × Nat × Nat))
    (batch : List SilverIn) (r : SilverIn)
    (hlat : r.latitude = some 0) (hlon : r.longitude = some 0) :
    (enrichRow hd batch r).latitude = none ∧
    (enrichRow hd batch r).longitude = none ∧
    (enrichRow hd batch r).lat_bin = none ∧
    (enrichRow hd batch r).lon_bin = none ∧
    (enrichRow hd batch r).geo_grid = none ∧
    (enrichRow hd batch r).distance_from_downtown_km = none ∧
    (enrichRow hd batch r).crime_density_bin =
      batch.countP (fun r2 => latBinOf r2 == none && lonBinOf r2 == none && r2.id.isSome) := by
  have hadj : latAdj r = none := by rw [latAdj, if_pos ⟨hlat, hlon⟩]
  have hadj2 : lonAdj r = none := by rw [lonAdj, if_pos ⟨hlat, hlon⟩]
  have hbin : latBinOf r = none := by rw [latBinOf, hadj]; rfl
  have hbin2 : lonBinOf r = none := by rw [lonBinOf, hadj2]; rfl
  refine ⟨hadj, hadj2, hbin, hbin2, ?_, ?_, ?_⟩
  · show (latBinOf r).bind _ = none
    rw [hbin]
    rfl
  · show (latAdj r).bind _ = none
    rw [hadj]
    rfl
  · show densityOf batch r = _
    rw [densityOf, hbin, hbin2]

theorem C5_sentinel_zero_coordinates_witness :
    (enrichRow [] [⟨some 0, some 0, some 1, none, none, none, none, none, none, none⟩]
        ⟨some 0, some 0, some 1, none, none, none, none, none, none, none⟩).latitude = none ∧
    (enrichRow [] [⟨some 0, some 0, some 1, none, none, none, none, none, none, none⟩]
        ⟨some 0, some 0, some 1, none, none, none, none, none, none, none⟩).longitude = none ∧
    (enrichRow [] [⟨some 0, some 0, some 1, none, none, none, none, none, none, none⟩]
        ⟨some 0, some 0, some 1, none, none, none, none, none, none, none⟩).lat_bin = none ∧
    (enrichRow [] [⟨some 0, some 0, some 1, none, none, none, none, none, none, none⟩]
        ⟨some 0, some 0, some 1, none, none, none, none, none, none, none⟩).lon_bin = none ∧
    (enrichRow [] [⟨some 0, some 0, some 1, none, none, none, none, none, none, none⟩]
        ⟨some 0, some 0, some 1, none, none, none, none, none, none, none⟩).geo_grid = none ∧
    (enrichRow [] [⟨some 0, some 0, some 1, none, none, none, none, none, none, none⟩]
        ⟨some 0, some 0, some 1, none, none, none, none, none, none,
          none⟩).distance_from_downtown_km = none ∧
    (enrichRow [] [⟨some 0, some 0, some 1, none, none, none, none, none, none, none⟩]
        ⟨some 0, some 0, some 1, none, none, none, none, none, none,
          none⟩).crime_density_bin =
      ([⟨some 0, some 0, some 1, none, none, none, none, none, none, none⟩] :
        List SilverIn).countP
        (fun r2 => latBinOf r2 == none && lonBinOf r2 == none && r2.id.isSome) :=
  C5_sentinel_zero_coordinates [] _ _ rfl rfl

/-- C6 (counterexample): a record with latitude 95 — outside [-90,90] — is
flagged `is_bad_location`, yet its spatial bin is the non-null value 95 and its
density is a non-null count, contradicting the claim that such rows have null
spatial-bin and density fields. -/
theorem C6_counterexample :
    (enrichRow [] [⟨some 95, some 10, some 1, none, none, none, none, none, none, none⟩]
        ⟨some 95, some 10, some 1, none, none, none, none, none, none,
          none⟩).is_bad_location = some true ∧
    (enrichRow [] [⟨some 95, some 10, some 1, none, none, none, none, none, none, none⟩]
        ⟨some 95, some 10, some 1, none, none, none, none, none, none, none⟩).lat_bin
      ≠ none ∧
    (enrichRow [] [⟨some 95, some 10, some 1, none, none, none, none, none, none, none⟩]
        ⟨some 95, some 10, some 1, none, none, none, none, none, none,
          none⟩).crime_density_bin = 1 := by
  refine ⟨rfl, ?_, ?_⟩
  · decide
  · exact densityOf_singleton_self _ rfl

/-- C6 (amended): a missing or out-of-range coordinate sets `is_bad_location`
true and the row still flows through (the enricher drops no rows), but the
spatial-bin fields are null exactly when the corresponding coordinate is null
or the pair is the (0,0) sentinel — rows with non-null out-of-range coordinates
keep numeric bins, and the density field is always a non-null count. -/
theorem C6_bad_location (hd : List (Int × Nat × Nat)) (batch : List SilverIn)
    (r : SilverIn)
    (h : r.latitude = none ∨ r.longitude = none ∨
      (∃ q, r.latitude = some q ∧ ¬(-90 ≤ q ∧ q ≤ 90)) ∨
      (∃ q, r.longitude = some q ∧ ¬(-180 ≤ q ∧ q ≤ 180))) :
    (enrichRow hd batch r).is_bad_location = some true ∧
    (enrichBatch hd batch).length = batch.length ∧
    ((enrichRow hd batch r).lat_bin = none ↔
      (r.latitude = none ∨ (r.latitude = some 0 ∧ r.longitude = some 0))) ∧
    ((enrichRow hd batch r).lon_bin = none ↔
      (r.longitude = none ∨ (r.latitude = some 0 ∧ r.longitude = some 0))) := by
  refine ⟨?_, ?_, ?_, ?_⟩
  · show kor (kor (kor (some r.latitude.isNone) (some r.longitude.isNone))
      (knot (obetween r.latitude (-90) 90))) (knot (obetween r.longitude (-180) 180))
      = some true
    rw [kor_eq_some_true_iff, kor_eq_some_true_iff, kor_eq_some_true_iff]
    rcases h with h1 | h1 | ⟨q, hq, hr⟩ | ⟨q, hq, hr⟩
    · left; left; left
      rw [h1]
      rfl
    · left; left; right
      rw [h1]
      rfl
    · left; right
      rw [hq, obetween, knot]
      show some (!(decide ((-90 : ℚ) ≤ q ∧ q ≤ 90))) = some true
      rw [decide_eq_false hr]
      rfl
    · right
      rw [hq, obetween, knot]
      show some (!(decide ((-180 : ℚ) ≤ q ∧ q ≤ 180))) = some true
      rw [decide_eq_false hr]
      rfl
  · show (batch.map _).length = batch.length
    exact List.length_map _ _
  · show latBinOf r = none ↔ _
    rw [latBinOf, latAdj]
    by_cases hs : r.latitude = some 0 ∧ r.longitude = some 0
    · rw [if_pos hs]
      simp [hs]
    · rw [if_neg hs]
      rcases hl : r.latitude with _ | q
      · simp
      · simp only [Option.map_some']
        constructor
        · intro hx
          exact absurd hx (by simp)
        · intro hx
          rcases hx with hx | hx
          · exact absurd hx (by simp)
          · exact absurd (hl ▸ hx) hs
  · show lonBinOf r = none ↔ _
    rw [lonBinOf, lonAdj]
    by_cases hs : r.latitude = some 0 ∧ r.longitude = some 0
    · rw [if_pos hs]
      simp [hs]
    · rw [if_neg hs]
      rcases hl : r.longitude with _ | q
      · simp
      · simp only [Option.map_some']
        constructor
        · intro hx
          exact absurd hx (by simp)
        · intro hx
          rcases hx with hx | hx
          · exact absurd hx (by simp)
          · exact absurd (hl ▸ hx) hs

theorem C6_bad_location_witness :
    ((⟨some 95, some 10, some 1, none, none, none, none, none, none, none⟩ :
        SilverIn).latitude = none ∨
      (⟨some 95, some 10, some 1, none, none, none, none, none, none, none⟩ :
        SilverIn).longitude = none ∨
      (∃ q, (⟨some 95, some 10, some 1, none, none, none, none, none, none, none⟩ :
        SilverIn).latitude = some q ∧ ¬(-90 ≤ q ∧ q ≤ 90)) ∨
      (∃ q, (⟨some 95, some 10, some 1, none, none, none, none, none, none, none⟩ :
        SilverIn).longitude = some q ∧ ¬(-180 ≤ q ∧ q ≤ 180))) ∧
    ((enrichRow [] [⟨some 95, some 10, some 1, none, none, none, none, none, none, none⟩]
        ⟨some 95, some 10, some 1, none, none, none, none, none, none,
          none⟩).is_bad_location = some true ∧
      (enrichBatch []
        [⟨some 95, some 10, some 1, none, none, none, none, none, none, none⟩]).length =
        ([⟨some 95, some 10, some 1, none, none, none, none, none, none, none⟩] :
          List SilverIn).length ∧
      ((enrichRow [] [⟨some 95, some 10, some 1, none, none, none, none, none, none, none⟩]
          ⟨some 95, some 10, some 1, none, none, none, none, none, none,
            none⟩).lat_bin = none ↔
        ((⟨some 95, some 10, some 1, none, none, none, none, none, none, none⟩ :
            SilverIn).latitude = none ∨
          ((⟨some 95, some 10, some 1, none, none, none, none, none, none, none⟩ :
              SilverIn).latitude = some 0 ∧
            (⟨some 95, some 10, some 1, none, none, none, none, none, none, none⟩ :
              SilverIn).longitude = some 0))) ∧
      ((enrichRow [] [⟨some 95, some 10, some 1, none, none, none, none, none, none, none⟩]
          ⟨some 95, some 10, some 1, none, none, none, none, none, none,
            none⟩).lon_bin = none ↔
        ((⟨some 95, some 10, some 1, none, none, none, none, none, none, none⟩ :
            SilverIn).longitude = none ∨
          ((⟨some 95, some 10, some 1, none, none, none, none, none, none, none⟩ :
              SilverIn).latitude = some 0 ∧
            (⟨some 95, some 10, some 1, none, none, none, none, none, none, none⟩ :
              SilverIn).longitude = some 0)))) :=
  ⟨Or.inr (Or.inr (Or.inl ⟨95, rfl, by norm_num⟩)),
    C6_bad_location [] _ _ (Or.inr (Or.inr (Or.inl ⟨95, rfl, by norm_num⟩)))⟩

/-- C7: the Feature Enricher's entry check fails exactly when some required
column is absent, and the raised error names exactly the missing columns. -/
theorem C7_required_columns (cols : List String) :
    (addFeaturesSchemaCheck cols = Except.ok () ↔
      ∀ c ∈ requiredColumns.map toLowerStr, c ∈ cols.map toLowerStr) ∧
    (∀ ms, addFeaturesSchemaCheck cols = Except.error ms →
      ms = (requiredColumns.map toLowerStr).filter
        (fun c => decide (c ∉ cols.map toLowerStr))) := by
  have hiff : ((requiredColumns.map toLowerStr).filter
      (fun c => decide (c ∉ cols.map toLowerStr))).isEmpty = true ↔
      ∀ c ∈ requiredColumns.map toLowerStr, c ∈ cols.map toLowerStr := by
    rw [List.isEmpty_iff, List.filter_eq_nil]
    simp
  constructor
  · rw [addFeaturesSchemaCheck]
    split
    · rename_i hempty
      constructor
      · intro _ c hc
        exact (hiff.mp hempty) c hc
      · intro _
        rfl
    · rename_i hempty
      constructor
      · intro hx
        exact absurd hx (by simp)
      · intro hall
        exact absurd (hiff.mpr hall) hempty
  · intro ms hms
    rw [addFeaturesSchemaCheck] at hms
    split at hms
    · exact absurd hms (by simp)
    · injection hms with h
      exact h.symm

theorem C7_required_columns_witness :
    (addFeaturesSchemaCheck ["latitude", "longitude", "district", "ward",
        "community_area", "primary_type", "fbi_code", "id", "date"]
      = Except.error ["beat"] → ["beat"] =
        (requiredColumns.map toLowerStr).filter
          (fun c => decide (c ∉ (["latitude", "longitude", "district", "ward",
            "community_area", "primary_type", "fbi_code", "id",
            "date"] : List String).map toLowerStr))) ∧
    ["beat"] = (requiredColumns.map toLowerStr).filter
      (fun c => decide (c ∉ (["latitude", "longitude", "district", "ward",
        "community_area", "primary_type", "fbi_code", "id",
        "date"] : List String).map toLowerStr)) :=
  ⟨(C7_required_columns ["latitude", "longitude", "district", "ward", "community_area",
      "primary_type", "fbi_code", "id", "date"]).2 ["beat"],
    (C7_required_columns ["latitude", "longitude", "district", "ward", "community_area",
      "primary_type", "fbi_code", "id", "date"]).2 ["beat"] rfl⟩

/-! ## The Report Period Generator `generate_report_periods`

Python `datetime` values compare chronologically; dates are modelled by
(year, month, day) triples with lexicographic comparison, and `timedelta` day
arithmetic through exact civil-calendar/day-number conversions. -/

structure CalDate where
  y : Int
  m : Nat
  d : Nat
deriving DecidableEq

/-- Chronological (= lexicographic) comparison of dates. -/
def dateLeB (a b : CalDate) : Bool :=
  decide (a.y < b.y ∨ (a.y = b.y ∧ (a.m < b.m ∨ (a.m = b.m ∧ a.d ≤ b.d))))

/-- Days since 1970-01-01 (standard civil-from-days algorithm, floor division). -/
def toRd (dt : CalDate) : Int :=
  let y : Int := if dt.m ≤ 2 then dt.y - 1 else dt.y
  let m : Int := dt.m
  let d : Int := dt.d
  let era := Int.fdiv y 400
  let yoe := y - era * 400
  let mp := Int.emod (m + 9) 12
  let doy := Int.fdiv (153 * mp + 2) 5 + d - 1
  let doe := yoe * 365 + Int.fdiv yoe 4 - Int.fdiv yoe 100 + doy
  era * 146097 + doe - 719468

def fromRd (z0 : Int) : CalDate :=
  let z := z0 + 719468
  let era := Int.fdiv z 146097
  let doe := z - era * 146097
  let yoe := Int.fdiv (doe - Int.fdiv doe 1460 + Int.fdiv doe 36524 - Int.fdiv doe 146096) 365
  let y := yoe + era * 400
  let doy := doe - (365 * yoe + Int.fdiv yoe 4 - Int.fdiv yoe 100)
  let mp := Int.fdiv (5 * doy + 2) 153
  let d := doy - Int.fdiv (153 * mp + 2) 5 + 1
  let m := if mp < 10 then mp + 3 else mp - 9
  ⟨y + (if m ≤ 2 then 1 else 0), m.toNat, d.toNat⟩

/-- `dt - timedelta(days=n)`. -/
def subDays (dt : CalDate) (n : Int) : CalDate := fromRd (toRd dt - n)

/-- `datetime(year+1, 1, 1)` / `datetime(year, month+1, 1)`: the month-walk step. -/
def nextMonthStart (dt : CalDate) : CalDate :=
  if dt.m = 12 then ⟨dt.y + 1, 1, 1⟩ else ⟨dt.y, dt.m + 1, 1⟩

/-- The `while current <= max_date` month walk, fuelled by the month span. -/
def monthWalk : Nat → CalDate → CalDate → List CalDate
  | 0, _, _ => []
  | fuel + 1, cur, maxd =>
    if dateLeB cur maxd then cur :: monthWalk fuel (nextMonthStart cur) maxd else []

def monthFuel (mind maxd : CalDate) : Nat :=
  ((maxd.y * 12 + (maxd.m : Int)) - (mind.y * 12 + (mind.m : Int))).toNat + 1

def walkMonths (mind maxd : CalDate) : List CalDate :=
  monthWalk (monthFuel mind maxd) mind maxd

structure ReportPeriod where
  report_type : String
  report_date : CalDate
  report_date_yyyymm : Int
  start_date : CalDate
  end_date : CalDate
deriving DecidableEq

/-- The four records generated for one report date (two retained, two prior). -/
def periodRecordsFor (rd : CalDate) : List ReportPeriod :=
  let year := rd.y
  let ytd_start : CalDate := ⟨year, 1, 1⟩
  let prior_ytd_start : CalDate := ⟨year - 1, 1, 1⟩
  let prior_ytd_end : CalDate :=
    if rd.m ≠ 12 then subDays ⟨year - 1, rd.m + 1, 1⟩ 1 else subDays ⟨year, 1, 1⟩ 1
  let r12_end := rd
  let r12_start := subDays r12_end 365
  let prior_r12_end := subDays r12_start 1
  let prior_r12_start := subDays prior_r12_end 365
  let yyyymm : Int := rd.y * 100 + (rd.m : Int)
  [⟨"R12", rd, yyyymm, r12_start, r12_end⟩,
   ⟨"YTD", rd, yyyymm, ytd_start, rd⟩,
   ⟨"Prior R12", rd, yyyymm, prior_r12_start, prior_r12_end⟩,
   ⟨"Prior YTD", rd, yyyymm, prior_ytd_start, prior_ytd_end⟩]

/-- All records before the two output filters (the prior records live only here). -/
def generateRecords (mind maxd : CalDate) : List ReportPeriod :=
  (walkMonths mind maxd).bind periodRecordsFor

/-- `generate_report_periods`: keep start dates from 2001-01-01, then drop the
`Prior R12`/`Prior YTD` records. -/
def generateReportPeriods (mind maxd : CalDate) : List ReportPeriod :=
  ((generateRecords mind maxd).filter
      (fun rec => dateLeB ⟨2001, 1, 1⟩ rec.start_date)).filter
    (fun rec => !(decide (toLowerStr rec.report_type ∈ ["prior r12", "prior ytd"])))

def isLeapYear (y : Int) : Bool := (Int.emod y 4 == 0 && Int.emod y 100 != 0) ||
  Int.emod y 400 == 0

def daysInMonth (y : Int) (m : Nat) : Nat :=
  if m ∈ [1, 3, 5, 7, 8, 10, 12] then 31
  else if m ∈ [4, 6, 9, 11] then 30
  else if isLeapYear y then 29 else 28

def isMonthEnd (dt : CalDate) : Bool := dt.d == daysInMonth dt.y dt.m

theorem monthWalk_mem (fuel : Nat) (cur maxd : CalDate) :
    ∀ x ∈ monthWalk fuel cur maxd, x = cur ∨ x.d = 1 := by
  induction fuel generalizing cur with
  | zero => intro x hx; exact absurd hx (by simp [monthWalk])
  | succ fuel ih =>
    intro x hx
    rw [monthWalk] at hx
    split at hx
    · rcases List.mem_cons.mp hx with h1 | h1
      · exact Or.inl h1
      · rcases ih (nextMonthStart cur) x h1 with h2 | h2
        · right
          rw [h2, nextMonthStart]
          split <;> rfl
        · exact Or.inr h2
    · exact absurd hx (by simp)

/-- C2 (counterexample): generated report dates are month *starts*, not month-end
anchors — `generate_report_periods(2025-01-01, 2025-02-01)` emits a period whose
report date (2025-01-01) is not a month end. -/
theorem C2_counterexample :
    ∃ rec ∈ generateReportPeriods ⟨2025, 1, 1⟩ ⟨2025, 2, 1⟩,
      isMonthEnd rec.report_date = false := by decide

/-- C2 (amended): every generated report date is `min_date` itself or the first
day of a month (a month-start anchor, month-end only when `min_date` is one);
when 2025-06-30 is walked (e.g. `min_date = 2025-06-30`) the YTD period for it
has start 2025-01-01 and end 2025-06-30, and its internal Prior YTD counterpart
— generated but filtered out of the output — has start 2024-01-01 and end
2024-06-30. -/
theorem C2_report_dates_and_ytd_scenario :
    (∀ mind maxd : CalDate, ∀ rec ∈ generateReportPeriods mind maxd,
      rec.report_date = mind ∨ rec.report_date.d = 1) ∧
    (⟨"YTD", ⟨2025, 6, 30⟩, 202506, ⟨2025, 1, 1⟩, ⟨2025, 6, 30⟩⟩ : ReportPeriod) ∈
      generateReportPeriods ⟨2025, 6, 30⟩ ⟨2025, 6, 30⟩ ∧
    (⟨"Prior YTD", ⟨2025, 6, 30⟩, 202506, ⟨2024, 1, 1⟩, ⟨2024, 6, 30⟩⟩ : ReportPeriod) ∈
      generateRecords ⟨2025, 6, 30⟩ ⟨2025, 6, 30⟩ ∧
    (⟨"Prior YTD", ⟨2025, 6, 30⟩, 202506, ⟨2024, 1, 1⟩, ⟨2024, 6, 30⟩⟩ : ReportPeriod) ∉
      generateReportPeriods ⟨2025, 6, 30⟩ ⟨2025, 6, 30⟩ := by
  refine ⟨?_, by decide, by decide, by decide⟩
  intro mind maxd rec hrec
  rw [generateReportPeriods] at hrec
  have h2 := List.mem_filter.mp hrec
  have h3 := List.mem_filter.mp h2.1
  rw [generateRecords] at h3
  obtain ⟨rd, hrd, hmem⟩ := List.mem_bind.mp h3.1
  have hdate : rec.report_date = rd := by
    rw [periodRecordsFor] at hmem
    simp only [List.mem_cons, List.mem_singleton, List.not_mem_nil, or_false] at hmem
    rcases hmem with h | h | h | h <;> rw [h]
  rw [hdate]
  exact monthWalk_mem _ _ _ rd hrd

theorem C2_report_dates_witness :
    (⟨"YTD", ⟨2025, 2, 1⟩, 202502, ⟨2025, 1, 1⟩, ⟨2025, 2, 1⟩⟩ : ReportPeriod) ∈
      generateReportPeriods ⟨2025, 1, 1⟩ ⟨2025, 2, 1⟩ ∧
    ((⟨"YTD", ⟨2025, 2, 1⟩, 202502, ⟨2025, 1, 1⟩, ⟨2025, 2, 1⟩⟩ :
        ReportPeriod).report_date = ⟨2025, 1, 1⟩ ∨
      (⟨"YTD", ⟨2025, 2, 1⟩, 202502, ⟨2025, 1, 1⟩, ⟨2025, 2, 1⟩⟩ :
        ReportPeriod).report_date.d = 1) :=
  ⟨by decide, C2_report_dates_and_ytd_scenario.1 ⟨2025, 1, 1⟩ ⟨2025, 2, 1⟩ _ (by decide)⟩

/-- C8: every record output by the generator has report type R12 or YTD (the
internal prior records are filtered away) and a start date on or after the
fixed minimum 2001-01-01. -/
theorem C8_output_periods (mind maxd : CalDate) (h : dateLeB mind maxd = true) :
    ∀ rec ∈ generateReportPeriods mind maxd,
      (rec.report_type = "R12" ∨ rec.report_type = "YTD") ∧
      dateLeB ⟨2001, 1, 1⟩ rec.start_date = true := by
  intro rec hrec
  rw [generateReportPeriods] at hrec
  have h2 := List.mem_filter.mp hrec
  have h3 := List.mem_filter.mp h2.1
  refine ⟨?_, h3.2⟩
  have h4 : (!(decide (toLowerStr rec.report_type ∈ ["prior r12", "prior ytd"]))) = true :=
    h2.2
  rw [generateRecords] at h3
  obtain ⟨rd, hrd, hmem⟩ := List.mem_bind.mp h3.1
  rw [periodRecordsFor] at hmem
  simp only [List.mem_cons, List.mem_singleton, List.not_mem_nil, or_false] at hmem
  rcases hmem with he | he | he | he
  · left; rw [he]
  · right; rw [he]
  · have hrt : rec.report_type = "Prior R12" := by rw [he]
    rw [hrt] at h4
    exact absurd h4 (by decide)
  · have hrt : rec.report_type = "Prior YTD" := by rw [he]
    rw [hrt] at h4
    exact absurd h4 (by decide)

theorem C8_output_periods_witness :
    dateLeB ⟨2025, 6, 30⟩ ⟨2025, 6, 30⟩ = true ∧
    (⟨"YTD", ⟨2025, 6, 30⟩, 202506, ⟨2025, 1, 1⟩, ⟨2025, 6, 30⟩⟩ : ReportPeriod) ∈
      generateReportPeriods ⟨2025, 6, 30⟩ ⟨2025, 6, 30⟩ ∧
    (((⟨"YTD", ⟨2025, 6, 30⟩, 202506, ⟨2025, 1, 1⟩, ⟨2025, 6, 30⟩⟩ :
        ReportPeriod).report_type = "R12" ∨
      (⟨"YTD", ⟨2025, 6, 30⟩, 202506, ⟨2025, 1, 1⟩, ⟨2025, 6, 30⟩⟩ :
        ReportPeriod).report_type = "YTD") ∧
      dateLeB ⟨2001, 1, 1⟩ (⟨"YTD", ⟨2025, 6, 30⟩, 202506, ⟨2025, 1, 1⟩,
        ⟨2025, 6, 30⟩⟩ : ReportPeriod).start_date = true) :=
  ⟨by decide, by decide,
    C8_output_periods ⟨2025, 6, 30⟩ ⟨2025, 6, 30⟩ (by decide) _ (by decide)⟩

/-! ## The Period Aggregator: `melt_and_pivot` and `base_agg`

Pivot tables are modelled as (category → count) mappings over the distinct
key-normalised category values of the batch (the wide columns are the
serialisation of this mapping); `total_cases` is the non-null `id` count of
`base_agg`, both grouped by `report_type`. -/

structure GoldRow where
  report_type : String
  id : Option Int
  primary_type : Option String
  fbi_code : Option String
  beat : Option String
  ward : Option String
  district : Option String
  community_area : Option String
  iucr : Option String
deriving DecidableEq

inductive GoldDim
  | primaryType
  | fbiCode
  | beat
  | ward
  | district
  | communityArea
  | iucr
deriving DecidableEq

def dimVal (r : GoldRow) : GoldDim → Option String
  | .primaryType => r.primary_type
  | .fbiCode => r.fbi_code
  | .beat => r.beat
  | .ward => r.ward
  | .district => r.district
  | .communityArea => r.community_area
  | .iucr => r.iucr

/-- The value transform of `melt_and_pivot` in the cases where all its casts
accept: lowercase, whitespace runs to underscore; the four geographic
dimensions additionally go through Utf8→Int64→Utf8 and zero padding; null
passes through every step as null.  This is the category key of a row in the
*produced* pivot — it only describes the pivot when the strict casts raised no
error (`castOkB`/`pivotOk` below), since otherwise no pivot exists at all. -/
def pivotKey (d : GoldDim) (v : Option String) : Option String :=
  v.bind (fun s =>
    let s1 := String.mk (snakeList (lowerList s.data))
    match d with
    | .beat => (castInt64 s1.data).map (fun i => String.mk (zfillList 4 (renderInt i)))
    | .ward => (castInt64 s1.data).map (fun i => String.mk (zfillList 3 (renderInt i)))
    | .district => (castInt64 s1.data).map (fun i => String.mk (zfillList 3 (renderInt i)))
    | .communityArea => (castInt64 s1.data).map (fun i => String.mk (zfillList 3 (renderInt i)))
    | _ => some s1)

/-- Whether `melt_and_pivot`'s `cast(pl.Int64)` accepts this value: polars'
default `strict=True` cast RAISES `InvalidOperationError` on non-null text
that does not parse as an Int64 (nulls pass through as null without error,
and the three non-geographic dimensions are not cast at all). -/
def castOkB (d : GoldDim) (v : Option String) : Bool :=
  match v with
  | none => true
  | some s =>
    match d with
    | .beat => (castInt64 (String.mk (snakeList (lowerList s.data))).data).isSome
    | .ward => (castInt64 (String.mk (snakeList (lowerList s.data))).data).isSome
    | .district => (castInt64 (String.mk (snakeList (lowerList s.data))).data).isSome
    | .communityArea => (castInt64 (String.mk (snakeList (lowerList s.data))).data).isSome
    | _ => true

/-- The full strict key normalisation of `melt_and_pivot`: `Except.error` is
the `InvalidOperationError` raised by the strict `cast(pl.Int64)`, which is
caught in `process_zip_file` and aborts the whole per-file aggregation —
no gold row is produced for the file. -/
def normKeyStrict (d : GoldDim) (v : Option String) : Except Unit (Option String) :=
  if castOkB d v then Except.ok (pivotKey d v) else Except.error ()

/-- The per-file aggregation actually produces its gold rows for dimension `d`
iff the strict cast accepts every value of the batch (the cast runs over the
whole column before grouping, so one bad value anywhere aborts the file). -/
def pivotOk (d : GoldDim) (rows : List GoldRow) : Bool :=
  rows.all (fun r => castOkB d (dimVal r d))

theorem normKeyStrict_ok (d : GoldDim) (v : Option String)
    (h : castOkB d v = true) : normKeyStrict d v = Except.ok (pivotKey d v) := by
  rw [normKeyStrict, if_pos h]

theorem castOkB_iff_no_raise (d : GoldDim) (v : Option String) :
    castOkB d v = true ↔ normKeyStrict d v ≠ Except.error () := by
  constructor
  · intro h
    rw [normKeyStrict, if_pos h]
    exact fun hx => Except.noConfusion hx
  · intro h
    rcases hb : castOkB d v
    · rw [normKeyStrict, if_neg (by simp [hb])] at h
      exact absurd rfl h
    · rfl

theorem pivotKey_isSome_of (d : GoldDim) (s : String)
    (h : castOkB d (some s) = true) :
    (pivotKey d (some s)).isSome = true := by
  cases d
  case primaryType => rfl
  case fbiCode => rfl
  case iucr => rfl
  case beat =>
    have h2 : (castInt64 (String.mk (snakeList (lowerList s.data))).data).isSome = true := h
    show ((castInt64 (String.mk (snakeList (lowerList s.data))).data).map
      (fun i => String.mk (zfillList 4 (renderInt i)))).isSome = true
    rcases hc : castInt64 (String.mk (snakeList (lowerList s.data))).data with _ | i
    · rw [hc] at h2
      exact absurd h2 (by decide)
    · rfl
  case ward =>
    have h2 : (castInt64 (String.mk (snakeList (lowerList s.data))).data).isSome = true := h
    show ((castInt64 (String.mk (snakeList (lowerList s.data))).data).map
      (fun i => String.mk (zfillList 3 (renderInt i)))).isSome = true
    rcases hc : castInt64 (String.mk (snakeList (lowerList s.data))).data with _ | i
    · rw [hc] at h2
      exact absurd h2 (by decide)
    · rfl
  case district =>
    have h2 : (castInt64 (String.mk (snakeList (lowerList s.data))).data).isSome = true := h
    show ((castInt64 (String.mk (snakeList (lowerList s.data))).data).map
      (fun i => String.mk (zfillList 3 (renderInt i)))).isSome = true
    rcases hc : castInt64 (String.mk (snakeList (lowerList s.data))).data with _ | i
    · rw [hc] at h2
      exact absurd h2 (by decide)
    · rfl
  case communityArea =>
    have h2 : (castInt64 (String.mk (snakeList (lowerList s.data))).data).isSome = true := h
    show ((castInt64 (String.mk (snakeList (lowerList s.data))).data).map
      (fun i => String.mk (zfillList 3 (renderInt i)))).isSome = true
    rcases hc : castInt64 (String.mk (snakeList (lowerList s.data))).data with _ | i
    · rw [hc] at h2
      exact absurd h2 (by decide)
    · rfl

theorem pivotKey_isSome_of_row (d : GoldDim) (r : GoldRow)
    (hok : castOkB d (dimVal r d) = true) (hnn : (dimVal r d).isSome = true) :
    (pivotKey d (dimVal r d)).isSome = true := by
  rcases hv : dimVal r d with _ | s
  · rw [hv] at hnn
    exact absurd hnn (by decide)
  · rw [hv] at hok
    exact pivotKey_isSome_of d s hok

def rowsOf (rt : String) (rows : List GoldRow) : List GoldRow :=
  rows.filter (fun r => r.report_type == rt)

/-- The distinct non-null normalised category values observed for `rt`
(the pivot columns of `melt_and_pivot`, before prefixing; only meaningful
when the aggregation succeeded, `pivotOk`). -/
def pivotCategories (d : GoldDim) (rt : String) (rows : List GoldRow) : List String :=
  ((rowsOf rt rows).filterMap (fun r => pivotKey d (dimVal r d))).dedup

/-- The count stored in one pivot column: non-null `id`s of the rows of `rt`
falling in that category. -/
def pivotCount (d : GoldDim) (rt : String) (rows : List GoldRow) (c : String) : Nat :=
  (rowsOf rt rows).countP (fun r => pivotKey d (dimVal r d) == some c && r.id.isSome)

/-- The sum over one dimension's pivot columns for the `rt` row. -/
def pivotRowSum (d : GoldDim) (rt : String) (rows : List GoldRow) : Nat :=
  ((pivotCategories d rt rows).map (pivotCount d rt rows)).sum

/-- `base_agg`'s `total_cases`: non-null `id` count per `report_type`. -/
def totalCases (rt : String) (rows : List GoldRow) : Nat :=
  (rowsOf rt rows).countP (fun r => r.id.isSome)

theorem sum_indicator_one (cs : List String) (c0 : String) (hnd : cs.Nodup)
    (hc : c0 ∈ cs) :
    (cs.map (fun c => if c0 = c then 1 else 0)).sum = 1 := by
  induction cs with
  | nil => exact absurd hc (by simp)
  | cons c t ih =>
    rw [List.map_cons, List.sum_cons]
    by_cases h0 : c0 = c
    · rw [if_pos h0]
      have hnotin : c0 ∉ t := by rw [h0]; exact (List.nodup_cons.mp hnd).1
      have hz : (t.map (fun c => if c0 = c then 1 else 0)).sum = 0 := by
        rw [List.sum_eq_zero]
        intro x hx
        rw [List.mem_map] at hx
        obtain ⟨a, ha, hax⟩ := hx
        rw [← hax]
        exact if_neg (fun he => hnotin (by rw [he]; exact ha))
      rw [hz]
    · rw [if_neg h0, Nat.zero_add]
      rcases List.mem_cons.mp hc with h1 | h1
      · exact absurd h1 h0
      · exact ih (List.nodup_cons.mp hnd).2 h1

theorem sum_map_add_nat {α : Type} (f g : α → Nat) (l : List α) :
    (l.map (fun x => f x + g x)).sum = (l.map f).sum + (l.map g).sum := by
  induction l with
  | nil => rfl
  | cons x t ih =>
    rw [List.map_cons, List.map_cons, List.map_cons, List.sum_cons, List.sum_cons,
      List.sum_cons, ih]
    omega

theorem countP_congr_mem {α : Type} (p q : α → Bool) (l : List α)
    (h : ∀ a ∈ l, p a = q a) : l.countP p = l.countP q := by
  induction l with
  | nil => rfl
  | cons x t ih =>
    rw [List.countP_cons, List.countP_cons, h x (List.mem_cons_self x t),
      ih (fun a ha => h a (List.mem_cons_of_mem x ha))]

/-- Partition law: summing per-category counts over a duplicate-free cover of the
observed categories counts every element with a non-null key exactly once. -/
theorem sum_countP_key {α : Type} (key : α → Option String) (q : α → Bool)
    (l : List α) (cs : List String) (hnd : cs.Nodup)
    (hcov : ∀ a ∈ l, ∀ c, key a = some c → c ∈ cs) :
    (cs.map (fun c => l.countP (fun a => key a == some c && q a))).sum
      = l.countP (fun a => (key a).isSome && q a) := by
  induction l with
  | nil => simp
  | cons x t ih =>
    have ihx := ih (fun a ha c hc => hcov a (List.mem_cons_of_mem x ha) c hc)
    have hsplit : (cs.map (fun c => (x :: t).countP (fun a => key a == some c && q a))).sum
        = (cs.map (fun c => t.countP (fun a => key a == some c && q a))).sum
          + (cs.map (fun c => if (key x == some c && q x) = true then 1 else 0)).sum := by
      rw [← sum_map_add_nat]
      exact congrArg List.sum (List.map_congr_left (fun c _ => by rw [List.countP_cons]))
    rw [hsplit, ihx, List.countP_cons]
    congr 1
    match hk : key x with
    | none =>
      rw [List.sum_eq_zero]
      · simp
      · intro y hy
        rw [List.mem_map] at hy
        obtain ⟨c, hcmem, hcy⟩ := hy
        rw [← hcy]
        simp
    | some c0 =>
      match hq : q x with
      | false =>
        rw [List.sum_eq_zero]
        · simp
        · intro y hy
          rw [List.mem_map] at hy
          obtain ⟨c, hcmem, hcy⟩ := hy
          rw [← hcy]
          simp
      | true =>
        have hmem : c0 ∈ cs := hcov x (List.mem_cons_self x t) c0 hk
        have heq : (cs.map (fun c =>
            if ((some c0 : Option String) == some c && true) = true then 1 else 0))
            = cs.map (fun c => if c0 = c then 1 else 0) := by
          apply List.map_congr_left
          intro c _
          by_cases h0 : c0 = c
          · rw [if_pos (by simp [h0]), if_pos h0]
          · rw [if_neg (by simp [h0]), if_neg h0]
        rw [heq, sum_indicator_one cs c0 hnd hmem]
        simp

/-- C3: for every period-aggregate row that is actually produced — the strict
`cast(pl.Int64)` of `melt_and_pivot` accepted every value of the batch
(`pivotOk`); on any rejected value the cast raises, `process_zip_file` catches,
and no aggregate row exists for the file — and every pivot dimension whose
category column is never null in that period's batch, the sum of that
dimension's pivot count columns equals the row's `total_cases`. -/
theorem C3_closed_partition (d : GoldDim) (rt : String) (rows : List GoldRow)
    (hok : pivotOk d rows = true)
    (h : ∀ r ∈ rows, r.report_type = rt → (dimVal r d).isSome = true) :
    pivotRowSum d rt rows = totalCases rt rows := by
  have hkeys : ∀ r ∈ rows, r.report_type = rt →
      (pivotKey d (dimVal r d)).isSome = true := by
    intro r hr hrt
    have hok2 : castOkB d (dimVal r d) = true := List.all_eq_true.mp hok r hr
    exact pivotKey_isSome_of_row d r hok2 (h r hr hrt)
  have hkey := sum_countP_key (fun r => pivotKey d (dimVal r d)) (fun r => r.id.isSome)
    (rowsOf rt rows) (pivotCategories d rt rows) (List.nodup_dedup _)
    (fun a ha c hc => List.mem_dedup.mpr (List.mem_filterMap.mpr ⟨a, ha, hc⟩))
  have hcnt : (rowsOf rt rows).countP
      (fun a => (pivotKey d (dimVal a d)).isSome && a.id.isSome)
      = (rowsOf rt rows).countP (fun r => r.id.isSome) := by
    apply countP_congr_mem
    intro r hr
    have hmem := List.mem_filter.mp hr
    have hrt : r.report_type = rt := by
      have hb := hmem.2
      rwa [beq_iff_eq] at hb
    rw [hkeys r hmem.1 hrt, Bool.true_and]
  show ((pivotCategories d rt rows).map (fun c => (rowsOf rt rows).countP
      (fun r => pivotKey d (dimVal r d) == some c && r.id.isSome))).sum
    = (rowsOf rt rows).countP (fun r => r.id.isSome)
  rw [← hcnt]
  exact hkey

theorem C3_closed_partition_witness :
    pivotOk GoldDim.beat
      [⟨"R12", some 1, some "THEFT", some "06", some "1011", some "5",
        some "003", some "005", some "0810"⟩,
       ⟨"R12", some 2, some "ARSON", some "08A", some "1012", some "5",
        some "003", some "005", some "0810"⟩] = true ∧
    (∀ r ∈ ([⟨"R12", some 1, some "THEFT", some "06", some "1011", some "5",
        some "003", some "005", some "0810"⟩,
      ⟨"R12", some 2, some "ARSON", some "08A", some "1012", some "5",
        some "003", some "005", some "0810"⟩] : List GoldRow),
      r.report_type = "R12" →
        (dimVal r GoldDim.beat).isSome = true) ∧
    pivotRowSum GoldDim.beat "R12"
        [⟨"R12", some 1, some "THEFT", some "06", some "1011", some "5",
          some "003", some "005", some "0810"⟩,
         ⟨"R12", some 2, some "ARSON", some "08A", some "1012", some "5",
          some "003", some "005", some "0810"⟩] =
      totalCases "R12"
        [⟨"R12", some 1, some "THEFT", some "06", some "1011", some "5",
          some "003", some "005", some "0810"⟩,
         ⟨"R12", some 2, some "ARSON", some "08A", some "1012", some "5",
          some "003", some "005", some "0810"⟩] :=
  ⟨by decide, by decide, C3_closed_partition GoldDim.beat "R12" _ (by decide) (by decide)⟩

/-! ## The Cross-Period Combiner `combine_parquet_files_incremental`

`pd.concat` aligns per-period aggregates on the union of the column labels,
filling cells of absent columns with NaN; afterwards every numeric column's
missing values are filled with zero (a pivot-count column absent from some
period acquires NaN, hence float dtype, hence the 0.0 fill).  Cells are
modelled by a tagged value type; non-numeric (string-like) columns keep their
missing values, as `select_dtypes` skips object columns. -/

inductive Val
  | vint (n : Int)
  | vfloat (q : ℚ)
  | vstr (s : String)
  | vnull
deriving DecidableEq

structure PTable where
  cols : List String
  rows : List (List (String × Val))
deriving DecidableEq

/-- Align one row (keyed by its own table's columns) to the combined column set. -/
def reindexRow (origCols newCols : List String) (row : List (String × Val)) :
    List (String × Val) :=
  newCols.map (fun c =>
    (c, if c ∈ origCols then (row.lookup c).getD Val.vnull else Val.vnull))

def unionCols (c1 c2 : List String) : List String :=
  c1 ++ c2.filter (fun c => decide (c ∉ c1))

/-- `pd.concat([t1, t2])` with column alignment. -/
def concatTables (t1 t2 : PTable) : PTable :=
  let u := unionCols t1.cols t2.cols
  ⟨u, t1.rows.map (reindexRow t1.cols u) ++ t2.rows.map (reindexRow t2.cols u)⟩

/-- A column is numeric when no cell holds string-like data (pandas dtype is
then int/float, possibly via the NaN-induced float upcast). -/
def numericColB (t : PTable) (c : String) : Bool :=
  t.rows.all (fun row =>
    match (row.lookup c).getD Val.vnull with
    | Val.vstr _ => false
    | _ => true)

/-- The `fillna(0)`/`fillna(0.0)` pass over the numeric columns. -/
def fillZeros (t : PTable) : PTable :=
  ⟨t.cols, t.rows.map (fun row => row.map (fun p =>
    (p.1, if p.2 = Val.vnull ∧ numericColB t p.1 = true then Val.vfloat 0 else p.2)))⟩

def combineParquet (t1 t2 : PTable) : PTable := fillZeros (concatTables t1 t2)

theorem lookup_map_self {β : Type} (cols : List String) (f : String → β) (c : String)
    (hc : c ∈ cols) : (cols.map (fun x => (x, f x))).lookup c = some (f c) := by
  induction cols with
  | nil => exact absurd hc (by simp)
  | cons k t ih =>
    rw [List.map_cons]
    by_cases hk : c = k
    · subst hk
      exact lookup_cons_eq c (f c) _
    · rw [lookup_cons_ne k (f k) _ c hk]
      rcases List.mem_cons.mp hc with h1 | h1
      · exact absurd h1 hk
      · exact ih h1

theorem drop_len_append {α : Type} (l₁ l₂ : List α) (n : Nat) (h : l₁.length = n) :
    (l₁ ++ l₂).drop n = l₂ := by
  subst h
  induction l₁ with
  | nil => rfl
  | cons x t ih => exact ih

theorem take_len_append {α : Type} (l₁ l₂ : List α) (n : Nat) (h : l₁.length = n) :
    (l₁ ++ l₂).take n = l₁ := by
  subst h
  induction l₁ with
  | nil => rfl
  | cons x t ih =>
    show x :: (t ++ l₂).take t.length = x :: t
    rw [ih]

theorem lookup_map_snd (row : List (String × Val)) (g : String → Val → Val) (c : String) :
    ((row.map (fun p => (p.1, g p.1 p.2))).lookup c) = (row.lookup c).map (g c) := by
  induction row with
  | nil => rfl
  | cons p t ih =>
    match p with
    | (k, v) =>
      rw [List.map_cons]
      by_cases hk : c = k
      · subst hk
        rw [lookup_cons_eq, lookup_cons_eq]
        rfl
      · rw [lookup_cons_ne k (g k v) _ c hk, lookup_cons_ne k v t c hk]
        exact ih

/-- C4: every pivot column present in either period's aggregate exists in the
combined table, and — provided the column holds integer counts where present —
the period lacking that category holds the filled value 0 (a number, never
null) in every one of its combined rows, in both orientations: a column only
in the first table leaves the second table's rows (after `drop`) zero-filled,
and a column only in the second table leaves the first table's rows (the
`take` prefix) zero-filled. -/
theorem C4_combiner_schema_union (t1 t2 : PTable) (c : String) :
    ((c ∈ t1.cols ∨ c ∈ t2.cols) → c ∈ (combineParquet t1 t2).cols) ∧
    (c ∈ t1.cols → c ∉ t2.cols →
      (∀ row ∈ t1.rows, ∃ n : Int, row.lookup c = some (Val.vint n)) →
      ∀ row ∈ (combineParquet t1 t2).rows.drop t1.rows.length,
        row.lookup c = some (Val.vfloat 0)) ∧
    (c ∉ t1.cols → c ∈ t2.cols →
      (∀ row ∈ t2.rows, ∃ n : Int, row.lookup c = some (Val.vint n)) →
      ∀ row ∈ (combineParquet t1 t2).rows.take t1.rows.length,
        row.lookup c = some (Val.vfloat 0)) := by
  refine ⟨?_, ?_, ?_⟩
  · intro h
    show c ∈ unionCols t1.cols t2.cols
    rw [unionCols]
    rcases h with h | h
    · exact List.mem_append.mpr (Or.inl h)
    · by_cases h1 : c ∈ t1.cols
      · exact List.mem_append.mpr (Or.inl h1)
      · exact List.mem_append.mpr (Or.inr (List.mem_filter.mpr ⟨h, by simp [h1]⟩))
  · intro h1 h2 hint
    have hu : c ∈ unionCols t1.cols t2.cols := List.mem_append.mpr (Or.inl h1)
    -- every cell of the concatenated table in column c is an integer or null,
    -- so the column is numeric and its nulls are filled with 0
    have hnum : numericColB (concatTables t1 t2) c = true := by
      rw [numericColB, List.all_eq_true]
      intro row hrow
      rcases List.mem_append.mp hrow with hr | hr
      · rw [List.mem_map] at hr
        obtain ⟨row0, hrow0, hre⟩ := hr
        subst hre
        rw [show reindexRow t1.cols (unionCols t1.cols t2.cols) row0
          = (unionCols t1.cols t2.cols).map (fun x =>
            (x, if x ∈ t1.cols then (row0.lookup x).getD Val.vnull else Val.vnull))
          from rfl]
        rw [lookup_map_self _ _ c hu]
        obtain ⟨n, hn⟩ := hint row0 hrow0
        rw [if_pos h1, hn]
        rfl
      · rw [List.mem_map] at hr
        obtain ⟨row0, hrow0, hre⟩ := hr
        subst hre
        rw [show reindexRow t2.cols (unionCols t1.cols t2.cols) row0
          = (unionCols t1.cols t2.cols).map (fun x =>
            (x, if x ∈ t2.cols then (row0.lookup x).getD Val.vnull else Val.vnull))
          from rfl]
        rw [lookup_map_self _ _ c hu]
        rw [if_neg h2]
        rfl
    intro row hrow
    have hsplit2 : (combineParquet t1 t2).rows.drop t1.rows.length
        = (t2.rows.map (reindexRow t2.cols (unionCols t1.cols t2.cols))).map
          (fun r2 => r2.map (fun p =>
            (p.1, if p.2 = Val.vnull ∧ numericColB (concatTables t1 t2) p.1 = true
              then Val.vfloat 0 else p.2))) := by
      show (((t1.rows.map (reindexRow t1.cols (unionCols t1.cols t2.cols))
          ++ t2.rows.map (reindexRow t2.cols (unionCols t1.cols t2.cols))).map
            (fun r2 => r2.map (fun p =>
              (p.1, if p.2 = Val.vnull ∧ numericColB (concatTables t1 t2) p.1 = true
                then Val.vfloat 0 else p.2)))).drop t1.rows.length) = _
      rw [List.map_append]
      apply drop_len_append
      rw [List.length_map, List.length_map]
    rw [hsplit2] at hrow
    rw [List.mem_map] at hrow
    obtain ⟨row1, hrow1, hre⟩ := hrow
    rw [List.mem_map] at hrow1
    obtain ⟨row0, hrow0, hre0⟩ := hrow1
    have hrowe : row = (unionCols t1.cols t2.cols).map (fun x =>
        (x, if (if x ∈ t2.cols then (row0.lookup x).getD Val.vnull else Val.vnull)
              = Val.vnull ∧ numericColB (concatTables t1 t2) x = true
            then Val.vfloat 0
            else (if x ∈ t2.cols then (row0.lookup x).getD Val.vnull else Val.vnull))) := by
      rw [← hre, ← hre0]
      show ((unionCols t1.cols t2.cols).map (fun x =>
          (x, if x ∈ t2.cols then (row0.lookup x).getD Val.vnull else Val.vnull))).map
            (fun p => (p.1, if p.2 = Val.vnull ∧
              numericColB (concatTables t1 t2) p.1 = true
              then Val.vfloat 0 else p.2)) = _
      rw [List.map_map]
      rfl
    rw [hrowe, lookup_map_self _ _ c hu, if_neg h2]
    rw [if_pos ⟨rfl, hnum⟩]
  · intro h1 h2 hint
    have hu : c ∈ unionCols t1.cols t2.cols :=
      List.mem_append.mpr (Or.inr (List.mem_filter.mpr ⟨h2, by simp [h1]⟩))
    -- symmetric orientation: the first table lacks c, so its reindexed cells in
    -- column c are null; the second table's cells are integers, so the column
    -- is numeric and the first table's nulls are filled with 0
    have hnum : numericColB (concatTables t1 t2) c = true := by
      rw [numericColB, List.all_eq_true]
      intro row hrow
      rcases List.mem_append.mp hrow with hr | hr
      · rw [List.mem_map] at hr
        obtain ⟨row0, hrow0, hre⟩ := hr
        subst hre
        rw [show reindexRow t1.cols (unionCols t1.cols t2.cols) row0
          = (unionCols t1.cols t2.cols).map (fun x =>
            (x, if x ∈ t1.cols then (row0.lookup x).getD Val.vnull else Val.vnull))
          from rfl]
        rw [lookup_map_self _ _ c hu]
        rw [if_neg h1]
        rfl
      · rw [List.mem_map] at hr
        obtain ⟨row0, hrow0, hre⟩ := hr
        subst hre
        rw [show reindexRow t2.cols (unionCols t1.cols t2.cols) row0
          = (unionCols t1.cols t2.cols).map (fun x =>
            (x, if x ∈ t2.cols then (row0.lookup x).getD Val.vnull else Val.vnull))
          from rfl]
        rw [lookup_map_self _ _ c hu]
        obtain ⟨n, hn⟩ := hint row0 hrow0
        rw [if_pos h2, hn]
        rfl
    intro row hrow
    have hsplit3 : (combineParquet t1 t2).rows.take t1.rows.length
        = (t1.rows.map (reindexRow t1.cols (unionCols t1.cols t2.cols))).map
          (fun r2 => r2.map (fun p =>
            (p.1, if p.2 = Val.vnull ∧ numericColB (concatTables t1 t2) p.1 = true
              then Val.vfloat 0 else p.2))) := by
      show (((t1.rows.map (reindexRow t1.cols (unionCols t1.cols t2.cols))
          ++ t2.rows.map (reindexRow t2.cols (unionCols t1.cols t2.cols))).map
            (fun r2 => r2.map (fun p =>
              (p.1, if p.2 = Val.vnull ∧ numericColB (concatTables t1 t2) p.1 = true
                then Val.vfloat 0 else p.2)))).take t1.rows.length) = _
      rw [List.map_append]
      apply take_len_append
      rw [List.length_map, List.length_map]
    rw [hsplit3] at hrow
    rw [List.mem_map] at hrow
    obtain ⟨row1, hrow1, hre⟩ := hrow
    rw [List.mem_map] at hrow1
    obtain ⟨row0, hrow0, hre0⟩ := hrow1
    have hrowe : row = (unionCols t1.cols t2.cols).map (fun x =>
        (x, if (if x ∈ t1.cols then (row0.lookup x).getD Val.vnull else Val.vnull)
              = Val.vnull ∧ numericColB (concatTables t1 t2) x = true
            then Val.vfloat 0
            else (if x ∈ t1.cols then (row0.lookup x).getD Val.vnull else Val.vnull))) := by
      rw [← hre, ← hre0]
      show ((unionCols t1.cols t2.cols).map (fun x =>
          (x, if x ∈ t1.cols then (row0.lookup x).getD Val.vnull else Val.vnull))).map
            (fun p => (p.1, if p.2 = Val.vnull ∧
              numericColB (concatTables t1 t2) p.1 = true
              then Val.vfloat 0 else p.2)) = _
      rw [List.map_map]
      rfl
    rw [hrowe, lookup_map_self _ _ c hu, if_neg h1]
    rw [if_pos ⟨rfl, hnum⟩]

theorem C4_combiner_schema_union_witness :
    (("crime_arson" ∈ (⟨["report_type", "crime_arson"],
        [[("report_type", Val.vstr "R12"), ("crime_arson", Val.vint 2)]]⟩ : PTable).cols ∨
      "crime_arson" ∈ (⟨["report_type"],
        [[("report_type", Val.vstr "YTD")]]⟩ : PTable).cols) →
      "crime_arson" ∈ (combineParquet
        ⟨["report_type", "crime_arson"],
          [[("report_type", Val.vstr "R12"), ("crime_arson", Val.vint 2)]]⟩
        ⟨["report_type"], [[("report_type", Val.vstr "YTD")]]⟩).cols) ∧
    (∀ row ∈ (combineParquet
        ⟨["report_type", "crime_arson"],
          [[("report_type", Val.vstr "R12"), ("crime_arson", Val.vint 2)]]⟩
        ⟨["report_type"], [[("report_type", Val.vstr "YTD")]]⟩).rows.drop 1,
      row.lookup "crime_arson" = some (Val.vfloat 0)) ∧
    (∀ row ∈ (combineParquet
        ⟨["report_type"], [[("report_type", Val.vstr "YTD")]]⟩
        ⟨["report_type", "crime_arson"],
          [[("report_type", Val.vstr "R12"), ("crime_arson", Val.vint 2)]]⟩).rows.take 1,
      row.lookup "crime_arson" = some (Val.vfloat 0)) :=
  ⟨(C4_combiner_schema_union
      ⟨["report_type", "crime_arson"],
        [[("report_type", Val.vstr "R12"), ("crime_arson", Val.vint 2)]]⟩
      ⟨["report_type"], [[("report_type", Val.vstr "YTD")]]⟩ "crime_arson").1,
    (C4_combiner_schema_union
      ⟨["report_type", "crime_arson"],
        [[("report_type", Val.vstr "R12"), ("crime_arson", Val.vint 2)]]⟩
      ⟨["report_type"], [[("report_type", Val.vstr "YTD")]]⟩ "crime_arson").2.1
      (by decide) (by decide)
      (by
        intro row hrow
        rw [List.mem_singleton] at hrow
        subst hrow
        exact ⟨2, by decide⟩),
    (C4_combiner_schema_union
      ⟨["report_type"], [[("report_type", Val.vstr "YTD")]]⟩
      ⟨["report_type", "crime_arson"],
        [[("report_type", Val.vstr "R12"), ("crime_arson", Val.vint 2)]]⟩
      "crime_arson").2.2
      (by decide) (by decide)
      (by
        intro row hrow
        rw [List.mem_singleton] at hrow
        subst hrow
        exact ⟨2, by decide⟩)⟩

end Crime
